import Mathlib

/-!
Shallow embedding of `src/plus/providers/providersService.ts` (class
`ProvidersService`): the fan-out / cursor-aggregation coordinator for
paged pull-request and issue queries across hosting providers, together
with its capability-aware filter translation.

The collaborator boundary (`ProvidersApi`, session gate, transports) is
modelled as a record of pure functions; fallible calls return
`Except String`.  The two facade operations are embedded as pure
functions that additionally return the ordered list of collaborator
calls they make (`CallEvent`), so that statements about "calls made"
are expressible.  JavaScript promise-completion order of the concurrent
per-unit calls is modelled by an explicit schedule parameter: the
accumulator pushes of the TS code (`data.push`, `cursor.cursors.push`)
happen in the order the unit promises resolve, which the schedule
reorders; call initiation happens in input order.
-/
/-- Identifier of a hosting provider.  Modelled from the spec: the enum
lives in `./models`, which is not under `src/`; the members named by the
code and the spec are GitLab, Bitbucket, AzureDevOps and a GitHub-like
default. -/
inductive ProviderId where
  | github
  | gitlab
  | bitbucket
  | azureDevOps

deriving DecidableEq

/-- Generic pull-request filters.  Modelled from the spec: enum
`PullRequestFilter` in `./models` (not under `src/`). -/
inductive PullRequestFilter where
  | author
  | assignee
  | reviewRequested
  | mention

deriving DecidableEq

/-- Generic issue filters.  Modelled from the spec: enum `IssueFilter`
in `./models` (not under `src/`). -/
inductive IssueFilter where
  | author
  | assignee
  | mention

deriving DecidableEq

/-- Pagination mode of a provider.  Modelled from the spec: enum
`PagingMode` in `./models` (not under `src/`); the code only tests
for `PagingMode.Repo` (per-unit fan-out), any other value taking the
bulk path. -/
inductive PagingMode where
  | repo
  | project

deriving DecidableEq

/-- One repository descriptor.  Modelled from the spec (§3
`RepoDescriptor`, type `ProviderRepoInput` of `./models`, not under
`src/`): `namespace` and `project` are nullable (the service
null-checks both), `name` identifies the repository. -/
structure ProviderRepoInput where
  «namespace» : Option String
  project : Option String
  name : String

deriving DecidableEq

/-- Input to the facade: either descriptors or opaque repo-id strings.
Modelled from the spec (§3 `RepoOrIdInput`; type `ProviderReposInput`
of `./models`, not under `src/`). -/
inductive ProviderReposInput where
  | repos (repos : List ProviderRepoInput)
  | repoIds (ids : List String)

deriving DecidableEq

/-- A repository paging unit: a repository paired with its per-unit
cursor (type `PagedRepoInput` of `./models`, not under `src/`). -/
structure PagedRepoInput where
  repo : ProviderRepoInput
  cursor : Option String

deriving DecidableEq

/-- A project paging unit for the organization-scoped provider (type
`PagedProjectInput` of `./models`, not under `src/`). -/
structure PagedProjectInput where
  «namespace» : String
  project : String
  cursor : Option String

deriving DecidableEq

/-- Current-user record (type `ProviderAccount` of `./models`, not
under `src/`); the service reads `id`, `username` and `name`, each of
which it null-checks. -/
structure ProviderAccount where
  id : Option String
  username : Option String
  name : Option String

deriving DecidableEq

/-- Paging metadata of one provider page (`PagedResult.paging`). -/
structure PageInfo where
  cursor : Option String
  more : Bool

deriving DecidableEq

/-- One page of results (type `PagedResult` of `../../git/gitProvider`,
not under `src/`): ordered values plus optional paging metadata. -/
structure PagedResult (α : Type) where
  values : List α
  paging : Option PageInfo := none

deriving DecidableEq

/-- Options passed to pull-request transports (type
`GetPullRequestsOptions` of `./models`, not under `src/`): the four
identity-filter slots plus the per-call cursor; absent slots are
`none`, mirroring absent object properties. -/
structure GetPullRequestsOptions where
  authorLogin : Option String := none
  assigneeLogins : Option (List String) := none
  reviewRequestedLogin : Option String := none
  mentionLogin : Option String := none
  cursor : Option String := none

deriving DecidableEq

/-- Options passed to issue transports (type `GetIssuesOptions` of
`./models`, not under `src/`). -/
structure GetIssuesOptions where
  authorLogin : Option String := none
  assigneeLogins : Option (List String) := none
  mentionLogin : Option String := none
  cursor : Option String := none

deriving DecidableEq

/-! ## The composite-cursor wire codec

The service serializes the composite cursor with `JSON.stringify` and
decodes caller cursors with `JSON.parse` (followed by
`cursorInfo.cursors ?? []`).  Both are embedded here at the character
level for the exact object shapes the service reads and writes:
`JSON.stringify` is modelled producing its exact output (insertion
key order, no whitespace, `undefined` properties dropped, strings
escaped as JavaScript does), and the decoder is a recursive-descent
parser for that grammar, returning `none` where `JSON.parse` throws
(e.g. the empty string); `"\x7b\x7d"` decodes to the empty cursor list
via the `?? []` fallback. -/
/-- Lowercase hex digit for `n < 16`, as produced inside a
`JSON.stringify` `\u00xx` escape. -/
def hexEscDigit (n : Nat) : Char :=
  if n < 10 then Char.ofNat (48 + n) else Char.ofNat (87 + n)

/-- Value of a hex digit character, accepting both cases. -/
def hexCharVal (c : Char) : Option Nat :=
  if 48 ≤ c.toNat ∧ c.toNat ≤ 57 then some (c.toNat - 48)
  else if 97 ≤ c.toNat ∧ c.toNat ≤ 102 then some (c.toNat - 87)
  else if 65 ≤ c.toNat ∧ c.toNat ≤ 70 then some (c.toNat - 55)
  else none

/-- The `JSON.stringify` escaping of one character inside a string
literal: quote and backslash are backslash-escaped, control characters
use the short escapes or `\u00xx`, everything else is emitted
verbatim. -/
def escapeChar (c : Char) : List Char :=
  if c = '"' then [ '\\', '"' ]
  else if c = '\\' then [ '\\', '\\' ]
  else if c = '\x08' then [ '\\', 'b' ]
  else if c = '\t' then [ '\\', 't' ]
  else if c = '\n' then [ '\\', 'n' ]
  else if c = '\x0c' then [ '\\', 'f' ]
  else if c = '\r' then [ '\\', 'r' ]
  else if c.toNat < 32 then
    '\\' :: 'u' :: '0' :: '0' :: [ hexEscDigit (c.toNat / 16), hexEscDigit (c.toNat % 16) ]
  else [ c ]

/-- The `JSON.stringify` escaping of a character sequence. -/
def escapeChars : List Char → List Char
  | [] => []
  | c :: cs => escapeChar c ++ escapeChars cs

/-- A JSON string literal as `JSON.stringify` emits it. -/
def encodeJString (s : String) : List Char :=
  '"' :: (escapeChars s.data ++ [ '"' ])

/-- Reads four hex digits (a `\uXXXX` escape payload) and yields the
code point and the remaining input. -/
def parseHex4 (cs : List Char) : Option (Nat × List Char) :=
  match cs with
  | h1 :: h2 :: h3 :: h4 :: cs2 =>
    match hexCharVal h1, hexCharVal h2, hexCharVal h3, hexCharVal h4 with
    | some a, some b, some c, some d => some (4096 * a + 256 * b + 16 * c + d, cs2)
    | _, _, _, _ => none
  | _ => none

/-- Body of a JSON string literal, consumed up to and including the
closing quote; returns the decoded characters and the remaining
input.  `none` models a `JSON.parse` `SyntaxError`.  The first
argument is recursion fuel (one unit per decoded character); callers
pass at least `input.length + 1`, which is always sufficient since
every decoded character consumes input. -/
def parseStrBody : Nat → List Char → Option (List Char × List Char)
  | 0, _ => none
  | _ + 1, [] => none
  | fuel + 1, c :: cs =>
    if c = '"' then some ([], cs)
    else if c = '\\' then
      match cs with
      | [] => none
      | e :: cs2 =>
        if e = '"' then (parseStrBody fuel cs2).map (fun p => ( '"' :: p.1, p.2))
        else if e = '\\' then (parseStrBody fuel cs2).map (fun p => ( '\\' :: p.1, p.2))
        else if e = '/' then (parseStrBody fuel cs2).map (fun p => ( '/' :: p.1, p.2))
        else if e = 'b' then (parseStrBody fuel cs2).map (fun p => ( '\x08' :: p.1, p.2))
        else if e = 't' then (parseStrBody fuel cs2).map (fun p => ( '\t' :: p.1, p.2))
        else if e = 'n' then (parseStrBody fuel cs2).map (fun p => ( '\n' :: p.1, p.2))
        else if e = 'f' then (parseStrBody fuel cs2).map (fun p => ( '\x0c' :: p.1, p.2))
        else if e = 'r' then (parseStrBody fuel cs2).map (fun p => ( '\r' :: p.1, p.2))
        else if e = 'u' then
          match parseHex4 cs2 with
          | some (n, cs3) => (parseStrBody fuel cs3).map (fun p => (Char.ofNat n :: p.1, p.2))
          | none => none
        else none
    else (parseStrBody fuel cs).map (fun p => (c :: p.1, p.2))

/-- A JSON string literal (opening quote onward), decoded. -/
def parseJStringAt (cs : List Char) : Option (String × List Char) :=
  match cs with
  | '"' :: cs2 => (parseStrBody (cs2.length + 1) cs2).map (fun p => (String.mk p.1, p.2))
  | _ => none

/-- Strips an expected literal prefix, returning the remaining input. -/
def stripPrefixChars : List Char → List Char → Option (List Char)
  | [], cs => some cs
  | _ :: _, [] => none
  | p :: ps, c :: cs => if c = p then stripPrefixChars ps cs else none

/-- The `JSON.stringify` separator placement: pieces joined by commas. -/
def joinComma : List (List Char) → List Char
  | [] => []
  | [x] => x
  | x :: y :: ys => x ++ ',' :: joinComma (y :: ys)

/-- One `"key":"value"` member as `JSON.stringify` emits it. -/
def encodePair (kv : String × String) : List Char :=
  encodeJString kv.1 ++ ':' :: encodeJString kv.2

/-- A flat all-string-valued JSON object as `JSON.stringify` emits it
from the given properties in insertion order. -/
def encodeObj (ps : List (String × String)) : List Char :=
  '{' :: (joinComma (ps.map encodePair) ++ [ '}' ])

/-- One `"key":"value"` member, parsed. -/
def parsePair (cs : List Char) : Option ((String × String) × List Char) :=
  match parseJStringAt cs with
  | none => none
  | some (k, cs2) =>
    match cs2 with
    | ':' :: cs3 =>
      match parseJStringAt cs3 with
      | none => none
      | some (v, cs4) => some ((k, v), cs4)
    | _ => none

/-- Members of a flat object after the opening brace, consumed up to
and including the closing brace.  Fueled (one unit per member). -/
def parsePairsAux : Nat → List Char → Option (List (String × String) × List Char)
  | 0, _ => none
  | fuel + 1, cs =>
    match parsePair cs with
    | none => none
    | some (kv, cs2) =>
      match cs2 with
      | ',' :: cs3 => (parsePairsAux fuel cs3).map (fun p => (kv :: p.1, p.2))
      | '}' :: cs3 => some ([kv], cs3)
      | _ => none

/-- A flat all-string-valued JSON object, parsed into its properties. -/
def parseObj (cs : List Char) : Option (List (String × String) × List Char) :=
  match cs with
  | '{' :: cs2 =>
    match cs2 with
    | '}' :: cs3 => some ([], cs3)
    | _ => parsePairsAux (cs2.length + 1) cs2
  | _ => none

/-- Property access on a parsed object (first occurrence wins, as in a
JavaScript object built left to right... duplicate keys cannot arise
from the service's own encodings). -/
def lookupStr (k : String) : List (String × String) → Option String
  | [] => none
  | kv :: ps => if kv.1 = k then some kv.2 else lookupStr k ps

/-- The properties `JSON.stringify` emits for a `ProviderRepoInput`
value inside a cursor entry: declaration order, `undefined` (absent)
properties dropped. -/
def repoPairs (r : ProviderRepoInput) : List (String × String) :=
  (match r.«namespace» with | some ns => [("namespace", ns)] | none => []) ++
  (match r.project with | some p => [("project", p)] | none => []) ++
  [("name", r.name)]

/-- Reading a parsed repo object back into `ProviderRepoInput`;
a missing `name` property models the unchecked cast of `JSON.parse`
output to the declared cursor type. -/
def repoFromPairs (ps : List (String × String)) : ProviderRepoInput :=
  { «namespace» := lookupStr "namespace" ps
    project := lookupStr "project" ps
    name := (lookupStr "name" ps).getD "" }

/-- The properties `JSON.stringify` emits for a `PagedProjectInput`
cursor entry (`getIssuesForRepos`, organization-scoped path): object
literal order `namespace`, `project`, `cursor`, with an `undefined`
cursor dropped. -/
def projectPairs (e : PagedProjectInput) : List (String × String) :=
  ("namespace", e.«namespace») :: ("project", e.project) ::
    (match e.cursor with | some c => [("cursor", c)] | none => [])

/-- Reading a parsed project entry back into `PagedProjectInput`. -/
def projectFromPairs (ps : List (String × String)) : PagedProjectInput :=
  { «namespace» := (lookupStr "namespace" ps).getD ""
    project := (lookupStr "project" ps).getD ""
    cursor := lookupStr "cursor" ps }

/-- One repo cursor entry `\x7b"repo":(object)(,"cursor":"...")?\x7d`
as `JSON.stringify` emits it (object literal order of
`providersService.ts`, `undefined` cursor dropped). -/
def encodeRepoEntry (e : PagedRepoInput) : List Char :=
  "\x7b\x22repo\x22:".data ++ encodeObj (repoPairs e.repo) ++
    (match e.cursor with
     | some c => ",\x22cursor\x22:".data ++ encodeJString c
     | none => []) ++ [ '}' ]

/-- One repo cursor entry, parsed. -/
def parseRepoEntry (cs : List Char) : Option (PagedRepoInput × List Char) :=
  match stripPrefixChars "\x7b\x22repo\x22:".data cs with
  | none => none
  | some cs2 =>
    match parseObj cs2 with
    | none => none
    | some (ps, cs3) =>
      match stripPrefixChars ",\x22cursor\x22:".data cs3 with
      | some cs4 =>
        match parseJStringAt cs4 with
        | none => none
        | some (cur, cs5) =>
          match cs5 with
          | '}' :: cs6 => some ({ repo := repoFromPairs ps, cursor := some cur }, cs6)
          | _ => none
      | none =>
        match cs3 with
        | '}' :: cs4 => some ({ repo := repoFromPairs ps, cursor := none }, cs4)
        | _ => none

/-- One project cursor entry, encoded. -/
def encodeProjectEntry (e : PagedProjectInput) : List Char :=
  encodeObj (projectPairs e)

/-- One project cursor entry, parsed. -/
def parseProjectEntry (cs : List Char) : Option (PagedProjectInput × List Char) :=
  (parseObj cs).map (fun p => (projectFromPairs p.1, p.2))

/-- The comma-separated entry array of a composite cursor, parsed with
the given entry parser.  Fueled (one unit per entry); stops before the
first character that is not a separator, leaving the rest to the
caller. -/
def parseEntriesAux {α : Type} (parseEntry : List Char → Option (α × List Char)) :
    Nat → List Char → Option (List α × List Char)
  | 0, _ => none
  | fuel + 1, cs =>
    match parseEntry cs with
    | none => none
    | some (e, cs2) =>
      match cs2 with
      | ',' :: cs3 => (parseEntriesAux parseEntry fuel cs3).map (fun p => (e :: p.1, p.2))
      | _ => some ([e], cs2)

/-- The text `JSON.stringify(\x7bcursors: l\x7d)` for a composite cursor whose
entries encode with `encodeEntry`. -/
def encodeCursors {α : Type} (encodeEntry : α → List Char) (l : List α) : String :=
  String.mk ("\x7b\x22cursors\x22:[".data ++ joinComma (l.map encodeEntry) ++ "]\x7d".data)

/-- The value `JSON.parse(s).cursors ?? []` for the cursor grammar the service
reads and writes: the whole input must be consumed; `"\x7b\x7d"` (the
default used for an absent caller cursor) decodes to the empty entry
list via the `?? []` fallback; `none` models a thrown `SyntaxError`
(in particular on the empty string). -/
def jsonParseCursors {α : Type} (parseEntry : List Char → Option (α × List Char))
    (s : String) : Option (List α) :=
  if s = "\x7b\x7d" then some []
  else
    match stripPrefixChars "\x7b\x22cursors\x22:[".data s.data with
    | none => none
    | some cs =>
      match cs with
      | ']' :: cs2 => if cs2 = "\x7d".data then some [] else none
      | _ =>
        match parseEntriesAux parseEntry (cs.length + 1) cs with
        | none => none
        | some (es, rest) => if rest = "]\x7d".data then some es else none

/-- The repo-unit composite-cursor wire codec, encoding side
(`JSON.stringify(cursor)` at the return of the fan-out paths). -/
def encodeRepoCursors : List PagedRepoInput → String :=
  encodeCursors encodeRepoEntry

/-- The repo-unit composite-cursor wire codec, decoding side
(`JSON.parse(options?.cursor ?? '\x7b\x7d').cursors ?? []`). -/
def jsonParseRepoCursors : String → Option (List PagedRepoInput) :=
  jsonParseCursors parseRepoEntry

/-- The project-unit composite-cursor wire codec, encoding side. -/
def encodeProjectCursors : List PagedProjectInput → String :=
  encodeCursors encodeProjectEntry

/-- The project-unit composite-cursor wire codec, decoding side. -/
def jsonParseProjectCursors : String → Option (List PagedProjectInput) :=
  jsonParseCursors parseProjectEntry

/-- A repository record returned by `getReposForAzureProject` (type
`ProviderRepository` of `./models`, not under `src/`); its contents
are irrelevant to the facade, which passes pages through unchanged. -/
structure ProviderRepository where
  name : String

deriving DecidableEq

/-! ## The collaborator boundary and the facade

`ProvidersApi` (`./providersApi`, not under `src/`) is the collaborator
record the service calls through: the session gate result, the
capability lookups, identity resolution, and the paging transports.
Each is modelled as a pure function; fallible calls return
`Except String`.  `CallEvent` records one collaborator call with the
arguments it received; the facade functions return their result paired
with the ordered list of calls they made (identity and transport
calls; the session gate and the pure capability lookups are not
network calls). -/
/-- One repository result value type is irrelevant to the coordinator;
the facades are parametric in the pull-request and issue value
types. -/
structure ProvidersApi (PR Issue : Type) where
  ensureSessionOk : ProviderId → Bool
  providerSupportsPullRequestFilters : ProviderId → List PullRequestFilter → Bool
  providerSupportsIssueFilters : ProviderId → List IssueFilter → Bool
  getProviderPullRequestsPagingMode : ProviderId → PagingMode
  getProviderIssuesPagingMode : ProviderId → PagingMode
  getCurrentUser : ProviderId → Except String (Option ProviderAccount)
  getCurrentUserForInstance : ProviderId → String → Except String (Option ProviderAccount)
  getPullRequestsForRepo :
    ProviderId → ProviderRepoInput → GetPullRequestsOptions → Except String (PagedResult PR)
  getPullRequestsForRepos :
    ProviderId → ProviderReposInput → GetPullRequestsOptions → Except String (PagedResult PR)
  getIssuesForRepo :
    ProviderId → ProviderRepoInput → GetIssuesOptions → Except String (PagedResult Issue)
  getIssuesForAzureProject :
    String → String → GetIssuesOptions → Except String (PagedResult Issue)
  getIssuesForRepos :
    ProviderId → ProviderReposInput → GetIssuesOptions → Except String (PagedResult Issue)
  getReposForAzureProject :
    String → String → Option String → Except String (PagedResult ProviderRepository)

/-- One identity or transport call made by the service, with the
arguments passed across the collaborator boundary. -/
inductive CallEvent where
  | currentUser (providerId : ProviderId)
  | currentUserForInstance (providerId : ProviderId) (organization : String)
  | pullRequestsForRepo (providerId : ProviderId) (repo : ProviderRepoInput)
      (opts : GetPullRequestsOptions)
  | pullRequestsForReposBulk (providerId : ProviderId) (input : ProviderReposInput)
      (opts : GetPullRequestsOptions)
  | issuesForRepo (providerId : ProviderId) (repo : ProviderRepoInput) (opts : GetIssuesOptions)
  | issuesForAzureProject («namespace» : String) (project : String) (opts : GetIssuesOptions)
  | issuesForReposBulk (providerId : ProviderId) (input : ProviderReposInput)
      (opts : GetIssuesOptions)
  | reposForAzureProject («namespace» : String) (project : String) (cursor : Option String)

deriving DecidableEq

/-- The check `isRepoIdsInput` of `./providersApi` (not under `src/`): which of
the two input forms was passed.  Modelled from the spec (§3): the two
forms are distinguished by element type. -/
def isRepoIdsInput : ProviderReposInput → Bool
  | .repos _ => false
  | .repoIds _ => true

/-- The TS `reposOrRepoIds as ProviderRepoInput[]` cast: the service
only performs it on the descriptor form; on the id form it yields the
empty list (never reached). -/
def asRepoInputs : ProviderReposInput → List ProviderRepoInput
  | .repos rs => rs
  | .repoIds _ => []

/-- JavaScript `Set` built by repeated `add`: deduplicated, insertion
order (first occurrence wins). -/
def setInsert {α : Type} [DecidableEq α] (l : List α) : List α :=
  l.foldl (fun acc a => if a ∈ acc then acc else acc ++ [a]) []

/-- Truthiness of `results.paging?.more`. -/
def moreOf {α : Type} (r : PagedResult α) : Bool :=
  match r.paging with
  | some p => p.more
  | none => false

/-- The unit page cursor `results.paging.cursor` (only read when the page reported more). -/
def cursorOf {α : Type} (r : PagedResult α) : Option String :=
  match r.paging with
  | some p => p.cursor
  | none => none

/-- Whether a collaborator call rejected. -/
def isErr {ε α : Type} : Except ε α → Bool
  | .error _ => true
  | .ok _ => false

/-- The page of a successful call (the error fallback is never read:
a failed call aborts the whole fan-out). -/
def okOr {ε α : Type} : Except ε (PagedResult α) → PagedResult α
  | .ok r => r
  | .error _ => { values := [] }

/-- The input-shape rejection of lines 48-56 / 192-200: every provider
except GitLab rejects the id form, and AzureDevOps additionally
requires `project` and `namespace` on every descriptor. -/
def unsupportedShape (providerId : ProviderId) (input : ProviderReposInput) : Prop :=
  providerId ≠ .gitlab ∧ (isRepoIdsInput input = true ∨
    (providerId = .azureDevOps ∧
      ¬ ∀ r ∈ asRepoInputs input, r.project.isSome = true ∧ r.«namespace».isSome = true))

instance (providerId : ProviderId) (input : ProviderReposInput) :
    Decidable (unsupportedShape providerId input) := by
  unfold unsupportedShape; infer_instance

/-- Lines 65-102 of `getPullRequestsForRepos`: resolve the current
user, organization-scoped for AzureDevOps (with the organization-count
validation first), plain otherwise.  Returns the account (`none`
covers both a rejected call and a null account, each of which makes
the facade return no result) and the identity calls made. -/
def prResolveAccount {PR Issue : Type} (api : ProvidersApi PR Issue) (providerId : ProviderId)
    (reposOrRepoIds : ProviderReposInput) : Option ProviderAccount × List CallEvent :=
  if providerId = .azureDevOps then
    let organizations := setInsert ((asRepoInputs reposOrRepoIds).map (·.«namespace»))
    if 1 < organizations.length then (none, [])
    else if organizations.length = 0 then (none, [])
    else
      let organization : String := (organizations.headD none).getD ""
      match api.getCurrentUserForInstance providerId organization with
      | .error _ => (none, [.currentUserForInstance providerId organization])
      | .ok ua => (ua, [.currentUserForInstance providerId organization])
  else
    match api.getCurrentUser providerId with
    | .error _ => (none, [.currentUser providerId])
    | .ok ua => (ua, [.currentUser providerId])

/-- The identity-field switch of lines 104-113: Bitbucket and
AzureDevOps filter by the account's stable id, every other provider by
its username. -/
def prUserFilterProperty (providerId : ProviderId) (ua : ProviderAccount) : Option String :=
  match providerId with
  | .bitbucket => ua.id
  | .azureDevOps => ua.id
  | _ => ua.username

/-- Lines 58-128 of `getPullRequestsForRepos`: the capability check and
filter translation.  `(none, tr)` means the facade returns no result
after the calls `tr`; `(some o, tr)` continues with
`getPullRequestsOptions = o` (`o = none` when no filters were
requested). -/
def prIdentityStage {PR Issue : Type} (api : ProvidersApi PR Issue) (providerId : ProviderId)
    (reposOrRepoIds : ProviderReposInput) (filters : Option (List PullRequestFilter)) :
    Option (Option GetPullRequestsOptions) × List CallEvent :=
  match filters with
  | none => (some none, [])
  | some fs =>
    if api.providerSupportsPullRequestFilters providerId fs then
      match prResolveAccount api providerId reposOrRepoIds with
      | (none, tr) => (none, tr)
      | (some ua, tr) =>
        match prUserFilterProperty providerId ua with
        | none => (none, tr)
        | some p =>
          (some (some {
            authorLogin := if PullRequestFilter.author ∈ fs then some p else none
            assigneeLogins := if PullRequestFilter.assignee ∈ fs then some [p] else none
            reviewRequestedLogin :=
              if PullRequestFilter.reviewRequested ∈ fs then some p else none
            mentionLogin := if PullRequestFilter.mention ∈ fs then some p else none }), tr)
    else (none, [])

/-- The spread `\x7b...getPullRequestsOptions, cursor: repoInput.cursor\x7d`. -/
def prUnitOpts (base : GetPullRequestsOptions) (inp : PagedRepoInput) :
    GetPullRequestsOptions :=
  { base with cursor := inp.cursor }

/-- The entries the fan-out pushes onto `cursor.cursors`: one per unit
whose page reported `more`, carrying that unit's returned cursor, in
push (completion) order. -/
def fanOutCursors {α β E : Type} (call : α → Except String (PagedResult β))
    (entryOf : α → Option String → E) (completed : List α) : List E :=
  completed.filterMap (fun u =>
    if moreOf (okOr (call u)) then some (entryOf u (cursorOf (okOr (call u)))) else none)

/-- The `hasMore` accumulator after all pushes. -/
def fanOutMore {α β : Type} (call : α → Except String (PagedResult β))
    (completed : List α) : Bool :=
  completed.any (fun u => moreOf (okOr (call u)))

/-- The merged page a fan-out returns when every unit call succeeded:
values concatenated in push (completion) order, the `more` or-fold,
and the serialized composite cursor of the still-paginating units. -/
def fanOutPage {α β E : Type} (call : α → Except String (PagedResult β))
    (entryOf : α → Option String → E) (enc : List E → String) (completed : List α) :
    PagedResult β :=
  { values := (completed.map (fun u => (okOr (call u)).values)).flatten
    paging := some {
      cursor := some (enc (fanOutCursors call entryOf completed))
      more := fanOutMore call completed } }

/-- The pull-request per-repo transport call of one fan-out unit
(line 147). -/
def prUnitCall {PR Issue : Type} (api : ProvidersApi PR Issue) (providerId : ProviderId)
    (base : GetPullRequestsOptions) (inp : PagedRepoInput) : Except String (PagedResult PR) :=
  api.getPullRequestsForRepo providerId inp.repo (prUnitOpts base inp)

/-- The merged page of the pull-request fan-out (lines 142-165) when
every unit call succeeded, with the accumulator pushes taken in the
promise-completion order `completed`. -/
def prFanOutPage {PR Issue : Type} (api : ProvidersApi PR Issue) (providerId : ProviderId)
    (base : GetPullRequestsOptions) (completed : List PagedRepoInput) : PagedResult PR :=
  fanOutPage (prUnitCall api providerId base)
    (fun inp c => { repo := inp.repo, cursor := c }) encodeRepoCursors completed

/-- The facade `ProvidersService.getPullRequestsForRepos` (lines 39-181).
`sched` is the promise-completion order of the concurrent per-unit
calls (theorems quantify over schedules that permute their input);
call initiation, and hence the returned trace, follows input order.
The `Except.error` result models the uncaught `JSON.parse` exception
of line 134; every handled failure is `.ok none` (the TS
`undefined`). -/
def ProvidersService.getPullRequestsForRepos {PR Issue : Type} (api : ProvidersApi PR Issue)
    (sched : List PagedRepoInput → List PagedRepoInput) (providerId : ProviderId)
    (reposOrRepoIds : ProviderReposInput) (filters : Option (List PullRequestFilter))
    (cursor : Option String) :
    Except String (Option (PagedResult PR)) × List CallEvent :=
  if api.ensureSessionOk providerId = false then (.ok none, [])
  else if unsupportedShape providerId reposOrRepoIds then (.ok none, [])
  else
    match prIdentityStage api providerId reposOrRepoIds filters with
    | (none, tr) => (.ok none, tr)
    | (some o, tr) =>
      let base := o.getD {}
      if api.getProviderPullRequestsPagingMode providerId = .repo ∧
          isRepoIdsInput reposOrRepoIds = false then
        match jsonParseRepoCursors (cursor.getD "\x7b\x7d") with
        | none => (.error "SyntaxError: Unexpected end of JSON input", tr)
        | some cursors =>
          let repoInputs := if 0 < cursors.length then cursors
            else (asRepoInputs reposOrRepoIds).map (fun r => { repo := r, cursor := none })
          let trace := tr ++ repoInputs.map (fun inp =>
            CallEvent.pullRequestsForRepo providerId inp.repo (prUnitOpts base inp))
          if repoInputs.any (fun inp => isErr (prUnitCall api providerId base inp)) then
            (.ok none, trace)
          else
            (.ok (some (prFanOutPage api providerId base (sched repoInputs))), trace)
      else
        let opts : GetPullRequestsOptions := { base with cursor := cursor }
        match api.getPullRequestsForRepos providerId reposOrRepoIds opts with
        | .error _ =>
          (.ok none, tr ++ [CallEvent.pullRequestsForReposBulk providerId reposOrRepoIds opts])
        | .ok r =>
          (.ok (some r), tr ++ [CallEvent.pullRequestsForReposBulk providerId reposOrRepoIds opts])

/-- The spread `\x7b...getIssuesOptions, cursor: ...cursor\x7d` for a project
unit. -/
def issueUnitOptsP (base : GetIssuesOptions) (inp : PagedProjectInput) : GetIssuesOptions :=
  { base with cursor := inp.cursor }

/-- The spread `\x7b...getIssuesOptions, cursor: repoInput.cursor\x7d`. -/
def issueUnitOptsR (base : GetIssuesOptions) (inp : PagedRepoInput) : GetIssuesOptions :=
  { base with cursor := inp.cursor }

/-- Lines 221-252 of `getIssuesForRepos` (the AzureDevOps filter
translation): capability check, organization-scoped identity
resolution, and translation using the account's display `name`. -/
def issuesIdentityAzure {PR Issue : Type} (api : ProvidersApi PR Issue)
    (providerId : ProviderId) (organization : String) (filters : Option (List IssueFilter)) :
    Option (Option GetIssuesOptions) × List CallEvent :=
  match filters with
  | none => (some none, [])
  | some fs =>
    if api.providerSupportsIssueFilters providerId fs then
      match api.getCurrentUserForInstance providerId organization with
      | .error _ => (none, [.currentUserForInstance providerId organization])
      | .ok none => (none, [.currentUserForInstance providerId organization])
      | .ok (some ua) =>
        match ua.name with
        | none => (none, [.currentUserForInstance providerId organization])
        | some p =>
          (some (some {
            authorLogin := if IssueFilter.author ∈ fs then some p else none
            assigneeLogins := if IssueFilter.assignee ∈ fs then some [p] else none
            mentionLogin := if IssueFilter.mention ∈ fs then some p else none }),
            [.currentUserForInstance providerId organization])
    else (none, [])

/-- Lines 303-328 of `getIssuesForRepos` (the non-AzureDevOps filter
translation): identity resolution and translation using `username`.
Note there is no `providerSupportsIssueFilters` check on this path. -/
def issuesIdentityNonAzure {PR Issue : Type} (api : ProvidersApi PR Issue)
    (providerId : ProviderId) (filters : Option (List IssueFilter)) :
    Option (Option GetIssuesOptions) × List CallEvent :=
  match filters with
  | none => (some none, [])
  | some fs =>
    match api.getCurrentUser providerId with
    | .error _ => (none, [.currentUser providerId])
    | .ok none => (none, [.currentUser providerId])
    | .ok (some ua) =>
      match ua.username with
      | none => (none, [.currentUser providerId])
      | some p =>
        (some (some {
          authorLogin := if IssueFilter.author ∈ fs then some p else none
          assigneeLogins := if IssueFilter.assignee ∈ fs then some [p] else none
          mentionLogin := if IssueFilter.mention ∈ fs then some p else none }),
          [.currentUser providerId])

/-- The AzureDevOps per-project issue transport call of one fan-out
unit (line 271). -/
def issueProjectUnitCall {PR Issue : Type} (api : ProvidersApi PR Issue)
    (base : GetIssuesOptions) (inp : PagedProjectInput) : Except String (PagedResult Issue) :=
  api.getIssuesForAzureProject inp.«namespace» inp.project (issueUnitOptsP base inp)

/-- The merged page of the AzureDevOps project fan-out (lines 266-297)
when every unit call succeeded, pushes in completion order
`completed`. -/
def issuesProjectFanOutPage {PR Issue : Type} (api : ProvidersApi PR Issue)
    (base : GetIssuesOptions) (completed : List PagedProjectInput) : PagedResult Issue :=
  fanOutPage (issueProjectUnitCall api base)
    (fun inp c => { «namespace» := inp.«namespace», project := inp.project, cursor := c })
    encodeProjectCursors completed

/-- The per-repo issue transport call of one fan-out unit (line 347). -/
def issueRepoUnitCall {PR Issue : Type} (api : ProvidersApi PR Issue)
    (providerId : ProviderId) (base : GetIssuesOptions) (inp : PagedRepoInput) :
    Except String (PagedResult Issue) :=
  api.getIssuesForRepo providerId inp.repo (issueUnitOptsR base inp)

/-- The merged page of the issue repo fan-out (lines 342-365) when
every unit call succeeded, pushes in completion order `completed`. -/
def issuesRepoFanOutPage {PR Issue : Type} (api : ProvidersApi PR Issue)
    (providerId : ProviderId) (base : GetIssuesOptions) (completed : List PagedRepoInput) :
    PagedResult Issue :=
  fanOutPage (issueRepoUnitCall api providerId base)
    (fun inp c => { repo := inp.repo, cursor := c }) encodeRepoCursors completed

/-- Lines 203-302 of `getIssuesForRepos`: the whole AzureDevOps branch
(organization and project sets, organization-count validation,
optional filter translation, project-cursor decoding and the project
fan-out). -/
def issuesAzure {PR Issue : Type} (api : ProvidersApi PR Issue)
    (schedP : List PagedProjectInput → List PagedProjectInput) (providerId : ProviderId)
    (reposOrRepoIds : ProviderReposInput) (filters : Option (List IssueFilter))
    (cursor : Option String) :
    Except String (Option (PagedResult Issue)) × List CallEvent :=
  let organizations := setInsert ((asRepoInputs reposOrRepoIds).map (·.«namespace»))
  let projects := setInsert ((asRepoInputs reposOrRepoIds).map (fun r => r.project.getD ""))
  if 1 < organizations.length then (.ok none, [])
  else if organizations.length = 0 then (.ok none, [])
  else
    let organization : String := (organizations.headD none).getD ""
    match issuesIdentityAzure api providerId organization filters with
    | (none, tr) => (.ok none, tr)
    | (some o, tr) =>
      let base := o.getD {}
      match jsonParseProjectCursors (cursor.getD "\x7b\x7d") with
      | none => (.error "SyntaxError: Unexpected end of JSON input", tr)
      | some cursors =>
        let projectInputs := if 0 < cursors.length then cursors
          else projects.map (fun p =>
            { «namespace» := organization, project := p, cursor := none })
        let trace := tr ++ projectInputs.map (fun inp =>
          CallEvent.issuesForAzureProject inp.«namespace» inp.project (issueUnitOptsP base inp))
        if projectInputs.any (fun inp => isErr (issueProjectUnitCall api base inp)) then
          (.ok none, trace)
        else
          (.ok (some (issuesProjectFanOutPage api base (schedP projectInputs))), trace)

/-- The facade `ProvidersService.getIssuesForRepos` (lines 183-381).  `schedR` and
`schedP` are the promise-completion orders of the repo fan-out and the
AzureDevOps project fan-out.  The `Except.error` result models the
uncaught `JSON.parse` exceptions of lines 254 and 334. -/
def ProvidersService.getIssuesForRepos {PR Issue : Type} (api : ProvidersApi PR Issue)
    (schedR : List PagedRepoInput → List PagedRepoInput)
    (schedP : List PagedProjectInput → List PagedProjectInput) (providerId : ProviderId)
    (reposOrRepoIds : ProviderReposInput) (filters : Option (List IssueFilter))
    (cursor : Option String) :
    Except String (Option (PagedResult Issue)) × List CallEvent :=
  if api.ensureSessionOk providerId = false then (.ok none, [])
  else if unsupportedShape providerId reposOrRepoIds then (.ok none, [])
  else if providerId = .azureDevOps then
    issuesAzure api schedP providerId reposOrRepoIds filters cursor
  else
    match issuesIdentityNonAzure api providerId filters with
    | (none, tr) => (.ok none, tr)
    | (some o, tr) =>
      let base := o.getD {}
      if api.getProviderIssuesPagingMode providerId = .repo ∧
          isRepoIdsInput reposOrRepoIds = false then
        match jsonParseRepoCursors (cursor.getD "\x7b\x7d") with
        | none => (.error "SyntaxError: Unexpected end of JSON input", tr)
        | some cursors =>
          let repoInputs := if 0 < cursors.length then cursors
            else (asRepoInputs reposOrRepoIds).map (fun r => { repo := r, cursor := none })
          let trace := tr ++ repoInputs.map (fun inp =>
            CallEvent.issuesForRepo providerId inp.repo (issueUnitOptsR base inp))
          if repoInputs.any (fun inp => isErr (issueRepoUnitCall api providerId base inp)) then
            (.ok none, trace)
          else
            (.ok (some (issuesRepoFanOutPage api providerId base (schedR repoInputs))), trace)
      else
        let opts : GetIssuesOptions := { base with cursor := cursor }
        match api.getIssuesForRepos providerId reposOrRepoIds opts with
        | .error _ =>
          (.ok none, tr ++ [CallEvent.issuesForReposBulk providerId reposOrRepoIds opts])
        | .ok r =>
          (.ok (some r), tr ++ [CallEvent.issuesForReposBulk providerId reposOrRepoIds opts])

/-- The facade `ProvidersService.getReposForAzureProject` (lines 383-395): session
gate, then a pure pass-through to the collaborator with every failure
collapsed to no result. -/
def ProvidersService.getReposForAzureProject {PR Issue : Type} (api : ProvidersApi PR Issue)
    («namespace» project : String) (cursor : Option String) :
    Except String (Option (PagedResult ProviderRepository)) × List CallEvent :=
  if api.ensureSessionOk .azureDevOps = false then (.ok none, [])
  else
    match api.getReposForAzureProject «namespace» project cursor with
    | .error _ => (.ok none, [.reposForAzureProject «namespace» project cursor])
    | .ok r => (.ok (some r), [.reposForAzureProject «namespace» project cursor])

/-- A pull-request query event that carries no identity filters: a
per-repo or bulk pull-request transport call whose options have every
identity slot absent (its cursor slot is unconstrained).  Identity
calls and issue calls do not satisfy it. -/
def prEventNoIdentity : CallEvent → Bool
  | .pullRequestsForRepo _ _ o =>
    o.authorLogin.isNone && o.assigneeLogins.isNone &&
      o.reviewRequestedLogin.isNone && o.mentionLogin.isNone
  | .pullRequestsForReposBulk _ _ o =>
    o.authorLogin.isNone && o.assigneeLogins.isNone &&
      o.reviewRequestedLogin.isNone && o.mentionLogin.isNone
  | _ => false

/-- An issue query event that carries no identity filters. -/
def issueEventNoIdentity : CallEvent → Bool
  | .issuesForRepo _ _ o =>
    o.authorLogin.isNone && o.assigneeLogins.isNone && o.mentionLogin.isNone
  | .issuesForAzureProject _ _ o =>
    o.authorLogin.isNone && o.assigneeLogins.isNone && o.mentionLogin.isNone
  | .issuesForReposBulk _ _ o =>
    o.authorLogin.isNone && o.assigneeLogins.isNone && o.mentionLogin.isNone
  | _ => false

/-! ## Concrete fixtures used to evaluate the facades at specific
inputs (spec §8 scenarios). -/
deriving instance DecidableEq for Except

/-- Scenario repository `R1` (namespace `org-a`, project `p1`). -/
def repoR1 : ProviderRepoInput :=
  { «namespace» := some "org-a", project := some "p1", name := "R1" }

/-- Scenario repository `R2` (namespace `org-a`, project `p2`). -/
def repoR2 : ProviderRepoInput :=
  { «namespace» := some "org-a", project := some "p2", name := "R2" }

/-- A repository in a second organization `org-b` (scenario B). -/
def repoR2b : ProviderRepoInput :=
  { «namespace» := some "org-b", project := some "p2", name := "R2" }

/-- The resolved current user of the scenarios. -/
def acct : ProviderAccount :=
  { id := some "42", username := some "alice", name := some "Alice A" }

/-- A fully cooperative collaborator: sessions succeed, every filter is
supported, both paging modes are per-repo, identity resolves to
`acct`, and the per-unit transports answer scenario A
(`R1 ↦ [pr1, pr2], more, cursor c1`; any other repo ↦ one value, no
more). -/
def apiA : ProvidersApi String String :=
  { ensureSessionOk := fun _ => true
    providerSupportsPullRequestFilters := fun _ _ => true
    providerSupportsIssueFilters := fun _ _ => true
    getProviderPullRequestsPagingMode := fun _ => .repo
    getProviderIssuesPagingMode := fun _ => .repo
    getCurrentUser := fun _ => .ok (some acct)
    getCurrentUserForInstance := fun _ _ => .ok (some acct)
    getPullRequestsForRepo := fun _ r _ =>
      if r.name = "R1" then
        .ok { values := ["pr1", "pr2"], paging := some { cursor := some "c1", more := true } }
      else
        .ok { values := ["pr3"], paging := some { cursor := none, more := false } }
    getPullRequestsForRepos := fun _ _ _ => .ok { values := ["bulkPr"], paging := none }
    getIssuesForRepo := fun _ r _ =>
      .ok { values := ["issue:" ++ r.name], paging := some { cursor := none, more := false } }
    getIssuesForAzureProject := fun _ p _ =>
      .ok { values := ["issue:" ++ p], paging := some { cursor := none, more := false } }
    getIssuesForRepos := fun _ _ _ => .ok { values := ["bulkIssue"], paging := none }
    getReposForAzureProject := fun _ _ _ => .ok { values := [], paging := none } }

/-- A collaborator identical to `apiA` except that no issue filter is
supported for any provider. -/
def apiNoIssueFilters : ProvidersApi String String :=
  { apiA with providerSupportsIssueFilters := fun _ _ => false }

/-- A collaborator identical to `apiA` except that the per-unit calls
against `R2` reject. -/
def apiR2Fails : ProvidersApi String String :=
  { apiA with
    getPullRequestsForRepo := fun p r o =>
      if r.name = "R2" then .error "network" else apiA.getPullRequestsForRepo p r o
    getIssuesForRepo := fun p r o =>
      if r.name = "R2" then .error "network" else apiA.getIssuesForRepo p r o }

/-- A collaborator identical to `apiA` except that no pull-request
filter is supported for any provider. -/
def apiNoPrFilters : ProvidersApi String String :=
  { apiA with providerSupportsPullRequestFilters := fun _ _ => false }

/-- A collaborator whose plain identity resolution rejects. -/
def apiIdentityFails : ProvidersApi String String :=
  { apiA with getCurrentUser := fun _ => .error "identity unavailable" }

/-- A bulk-mode collaborator whose bulk transport rejects. -/
def apiBulkFails : ProvidersApi String String :=
  { apiA with
    getProviderPullRequestsPagingMode := fun _ => .project
    getPullRequestsForRepos := fun _ _ _ => .error "bulk rejected" }

example : parseStrBody 9 "ab\x22tail".data = some ([ 'a', 'b' ], "tail".data) := by decide

example : parseStrBody 9 (escapeChars "a\x22b\n\x00".data ++ [ '"' ]) =
    some ("a\x22b\n\x00".data, []) := by decide

example : jsonParseRepoCursors "\x7b\x7d" = some [] := by decide

example : jsonParseRepoCursors "" = none := by decide

example : jsonParseRepoCursors "\x7b\x22cursors\x22:[]\x7d" = some [] := by decide

example :
    jsonParseRepoCursors (encodeRepoCursors
      [{ repo := { «namespace» := some "o", project := none, name := "r" }, cursor := some "c1" },
       { repo := { «namespace» := none, project := none, name := "q" }, cursor := none }]) =
    some [{ repo := { «namespace» := some "o", project := none, name := "r" }, cursor := some "c1" },
          { repo := { «namespace» := none, project := none, name := "q" }, cursor := none }] := by
  decide

example :
    jsonParseProjectCursors (encodeProjectCursors
      [{ «namespace» := "o", project := "p", cursor := some "c" },
       { «namespace» := "o", project := "q", cursor := none }]) =
    some [{ «namespace» := "o", project := "p", cursor := some "c" },
          { «namespace» := "o", project := "q", cursor := none }] := by decide

theorem hexCharVal_hexEscDigit : ∀ n < 16, hexCharVal (hexEscDigit n) = some n := by decide

theorem parseStrBody_escapeChar (c : Char) (fuel : Nat) (t s rest : List Char)
    (h : parseStrBody fuel t = some (s, rest)) :
    parseStrBody (fuel + 1) (escapeChar c ++ t) = some (c :: s, rest) := by
  unfold escapeChar
  split_ifs with h1 h2 h3 h4 h5 h6 h7 h8
  · subst h1; simp [parseStrBody, h]
  · subst h2; simp [parseStrBody, h]
  · subst h3; simp [parseStrBody, h]
  · subst h4; simp [parseStrBody, h]
  · subst h5; simp [parseStrBody, h]
  · subst h6; simp [parseStrBody, h]
  · subst h7; simp [parseStrBody, h]
  · have hd : c.toNat / 16 < 16 := by omega
    have hm : c.toNat % 16 < 16 := Nat.mod_lt _ (by omega)
    have e1 : 4096 * 0 + 256 * 0 + 16 * (c.toNat / 16) + c.toNat % 16 = c.toNat := by omega
    have h0 : hexCharVal '0' = some 0 := by decide
    simp [parseStrBody, parseHex4, h0, hexCharVal_hexEscDigit _ hd,
      hexCharVal_hexEscDigit _ hm, h]
    have e3 : 16 * (c.toNat / 16) + c.toNat % 16 = c.toNat := by omega
    rw [e3, Char.ofNat_toNat]
  · simp [parseStrBody, h, h1, h2]

theorem parseStrBody_escapeChars (s : List Char) : ∀ fuel ≥ s.length + 1, ∀ rest : List Char,
    parseStrBody fuel (escapeChars s ++ '"' :: rest) = some (s, rest) := by
  induction s with
  | nil =>
    intro fuel hf rest
    match fuel, hf with
    | n + 1, _ => simp [escapeChars, parseStrBody]
  | cons c cs ih =>
    intro fuel hf rest
    match fuel, hf with
    | n + 1, hf =>
      rw [escapeChars, List.append_assoc]
      exact parseStrBody_escapeChar c n _ cs rest (ih n (by simpa using Nat.lt_succ_iff.mp (Nat.lt_of_lt_of_le (Nat.lt_succ_self _) hf)) rest)

theorem escapeChar_length_pos (c : Char) : 1 ≤ (escapeChar c).length := by
  unfold escapeChar; split_ifs <;> simp

theorem le_length_escapeChars (s : List Char) : s.length ≤ (escapeChars s).length := by
  induction s with
  | nil => simp [escapeChars]
  | cons c cs ih =>
    rw [escapeChars, List.length_append]
    have := escapeChar_length_pos c
    simp only [List.length_cons]
    omega

theorem parseJStringAt_encode (v : String) (rest : List Char) :
    parseJStringAt (encodeJString v ++ rest) = some (v, rest) := by
  have e1 : encodeJString v ++ rest = '"' :: (escapeChars v.data ++ '"' :: rest) := by
    simp [encodeJString]
  rw [e1]
  have hf : v.data.length + 1 ≤ (escapeChars v.data ++ '"' :: rest).length + 1 := by
    have := le_length_escapeChars v.data
    simp only [List.length_append, List.length_cons]
    omega
  simp only [parseJStringAt]
  rw [parseStrBody_escapeChars v.data _ hf rest]
  rfl

theorem stripPrefixChars_append (p rest : List Char) :
    stripPrefixChars p (p ++ rest) = some rest := by
  induction p with
  | nil => rfl
  | cons c cs ih => simp [stripPrefixChars, ih]

theorem parsePair_encode (kv : String × String) (rest : List Char) :
    parsePair (encodePair kv ++ rest) = some (kv, rest) := by
  have e1 : encodePair kv ++ rest =
      encodeJString kv.1 ++ (':' :: (encodeJString kv.2 ++ rest)) := by
    simp [encodePair]
  rw [e1, parsePair, parseJStringAt_encode]
  simp [parseJStringAt_encode]

theorem encodePair_length_pos (kv : String × String) : 1 ≤ (encodePair kv).length := by
  simp [encodePair, encodeJString]

theorem length_le_joinComma_pairs (ps : List (String × String)) :
    ps.length ≤ (joinComma (ps.map encodePair)).length := by
  induction ps with
  | nil => simp [joinComma]
  | cons p q ih =>
    cases q with
    | nil => simpa [joinComma] using encodePair_length_pos p
    | cons q2 qs =>
      rw [List.map_cons, List.map_cons, joinComma]
      have := encodePair_length_pos p
      rw [List.map_cons] at ih
      simp only [List.length_cons, List.length_append] at *
      omega

theorem parsePairsAux_encode (ps : List (String × String)) :
    ∀ fuel, ps.length ≤ fuel → ps ≠ [] → ∀ rest : List Char,
    parsePairsAux fuel (joinComma (ps.map encodePair) ++ '}' :: rest) = some (ps, rest) := by
  induction ps with
  | nil => intro fuel _ hne; cases hne rfl
  | cons p q ih =>
    intro fuel hf _ rest
    match fuel, hf with
    | n + 1, hf =>
      cases q with
      | nil =>
        rw [List.map_cons, List.map_nil, joinComma]
        simp [parsePairsAux, parsePair_encode p ( '}' :: rest)]
      | cons q2 qs =>
        rw [List.map_cons, List.map_cons, joinComma]
        have e1 : (encodePair p ++ ',' :: joinComma (encodePair q2 :: qs.map encodePair)) ++ '}' :: rest =
            encodePair p ++ (',' :: (joinComma (encodePair q2 :: qs.map encodePair) ++ '}' :: rest)) := by
          simp
        rw [e1]
        have hrec : parsePairsAux n (joinComma (encodePair q2 :: qs.map encodePair) ++ '}' :: rest) =
            some (q2 :: qs, rest) := by
          have h9 := ih n (by simp only [List.length_cons] at hf ⊢; omega) (by simp) rest
          rw [List.map_cons] at h9
          exact h9
        simp [parsePairsAux, parsePair_encode p, hrec]

theorem encodePair_head (p : String × String) : ∃ t, encodePair p = '"' :: t :=
  ⟨(escapeChars p.1.data ++ [ '"' ]) ++ ':' :: encodeJString p.2, rfl⟩

theorem joinComma_pairs_head (p : String × String) (q : List (String × String)) :
    ∃ t, joinComma ((p :: q).map encodePair) = '"' :: t := by
  cases q with
  | nil => simpa [joinComma] using encodePair_head p
  | cons q2 qs =>
    obtain ⟨t, ht⟩ := encodePair_head p
    refine ⟨t ++ ',' :: joinComma ((q2 :: qs).map encodePair), ?_⟩
    rw [List.map_cons, List.map_cons, joinComma, ht]
    simp

theorem parseObj_encode (ps : List (String × String)) (rest : List Char) :
    parseObj (encodeObj ps ++ rest) = some (ps, rest) := by
  cases ps with
  | nil => simp [encodeObj, joinComma, parseObj]
  | cons p q =>
    have e1 : encodeObj (p :: q) ++ rest =
        '{' :: (joinComma ((p :: q).map encodePair) ++ '}' :: rest) := by
      simp [encodeObj]
    obtain ⟨t, ht⟩ := joinComma_pairs_head p q
    rw [e1, ht]
    rw [show (( '"' :: t) ++ '}' :: rest) = '"' :: (t ++ '}' :: rest) from rfl]
    simp only [parseObj, List.length_cons]
    split
    · next heq => simp at heq
    · rw [show ( '"' :: (t ++ '}' :: rest)) = (( '"' :: t) ++ '}' :: rest) from rfl, ← ht]
      refine parsePairsAux_encode (p :: q) _ ?_ (by simp) rest
      have h1 := length_le_joinComma_pairs (p :: q)
      have h2 : (joinComma ((p :: q).map encodePair)).length = t.length + 1 := by rw [ht]; simp
      simp only [List.length_append, List.length_cons] at *
      omega

theorem repoFromPairs_repoPairs (r : ProviderRepoInput) :
    repoFromPairs (repoPairs r) = r := by
  obtain ⟨ns, pr, nm⟩ := r
  cases ns <;> cases pr <;> simp [repoPairs, repoFromPairs, lookupStr]

theorem projectFromPairs_projectPairs (e : PagedProjectInput) :
    projectFromPairs (projectPairs e) = e := by
  obtain ⟨ns, pr, cur⟩ := e
  cases cur <;> simp [projectPairs, projectFromPairs, lookupStr]

theorem parseRepoEntry_encode (e : PagedRepoInput) (rest : List Char) :
    parseRepoEntry (encodeRepoEntry e ++ rest) = some (e, rest) := by
  obtain ⟨r, cur⟩ := e
  cases cur with
  | none =>
    have e1 : encodeRepoEntry ⟨r, none⟩ ++ rest =
        "\x7b\x22repo\x22:".data ++ (encodeObj (repoPairs r) ++ '}' :: rest) := by
      simp [encodeRepoEntry]
    rw [e1]
    simp only [parseRepoEntry, stripPrefixChars_append, parseObj_encode]
    simp [stripPrefixChars, repoFromPairs_repoPairs]
  | some c =>
    have e1 : encodeRepoEntry ⟨r, some c⟩ ++ rest =
        "\x7b\x22repo\x22:".data ++ (encodeObj (repoPairs r) ++
          (",\x22cursor\x22:".data ++ (encodeJString c ++ '}' :: rest))) := by
      simp [encodeRepoEntry]
    rw [e1]
    simp only [parseRepoEntry, stripPrefixChars_append, parseObj_encode,
      parseJStringAt_encode, repoFromPairs_repoPairs]

theorem parseProjectEntry_encode (e : PagedProjectInput) (rest : List Char) :
    parseProjectEntry (encodeProjectEntry e ++ rest) = some (e, rest) := by
  simp [parseProjectEntry, encodeProjectEntry, parseObj_encode,
    projectFromPairs_projectPairs]

theorem joinComma_head {α : Type} (enc : α → List Char) (c : Char)
    (hhead : ∀ x, ∃ t, enc x = c :: t) (e : α) (q : List α) :
    ∃ t, joinComma ((e :: q).map enc) = c :: t := by
  cases q with
  | nil => simpa [joinComma] using hhead e
  | cons q2 qs =>
    obtain ⟨t, ht⟩ := hhead e
    refine ⟨t ++ ',' :: joinComma ((q2 :: qs).map enc), ?_⟩
    rw [List.map_cons, List.map_cons, joinComma, ht]
    simp

theorem length_le_joinComma {α : Type} (enc : α → List Char)
    (hpos : ∀ x, 1 ≤ (enc x).length) (l : List α) :
    l.length ≤ (joinComma (l.map enc)).length := by
  induction l with
  | nil => simp [joinComma]
  | cons e q ih =>
    cases q with
    | nil => simpa [joinComma] using hpos e
    | cons q2 qs =>
      rw [List.map_cons, List.map_cons, joinComma]
      have := hpos e
      rw [List.map_cons] at ih
      simp only [List.length_cons, List.length_append] at *
      omega

theorem parseEntriesAux_encode {α : Type} (pe : List Char → Option (α × List Char))
    (enc : α → List Char)
    (hrt : ∀ e rest, pe (enc e ++ rest) = some (e, rest)) (l : List α) :
    ∀ fuel, l.length ≤ fuel → l ≠ [] →
    parseEntriesAux pe fuel (joinComma (l.map enc) ++ "]\x7d".data) =
      some (l, "]\x7d".data) := by
  induction l with
  | nil => intro fuel _ hne; cases hne rfl
  | cons e q ih =>
    intro fuel hf _
    match fuel, hf with
    | n + 1, hf =>
      cases q with
      | nil =>
        rw [List.map_cons, List.map_nil, joinComma]
        simp [parseEntriesAux, hrt e]
      | cons q2 qs =>
        rw [List.map_cons, List.map_cons, joinComma]
        have e1 : (enc e ++ ',' :: joinComma (enc q2 :: qs.map enc)) ++ "]\x7d".data =
            enc e ++ (',' :: (joinComma (enc q2 :: qs.map enc) ++ "]\x7d".data)) := by
          simp
        rw [e1]
        have h9 := ih n (by simp only [List.length_cons] at hf ⊢; omega) (by simp)
        rw [List.map_cons] at h9
        simp [parseEntriesAux, hrt e, h9]

theorem jsonParseCursors_encodeCursors {α : Type}
    (pe : List Char → Option (α × List Char)) (enc : α → List Char)
    (hrt : ∀ e rest, pe (enc e ++ rest) = some (e, rest))
    (hhead : ∀ x, ∃ t, enc x = '{' :: t) (l : List α) :
    jsonParseCursors pe (encodeCursors enc l) = some l := by
  cases l with
  | nil => rfl
  | cons e q =>
    have hne : encodeCursors enc (e :: q) ≠ "\x7b\x7d" := by
      intro hc
      have hd := congrArg String.data hc
      simp only [encodeCursors] at hd
      have hlen := congrArg List.length hd
      rw [show ("\x7b\x7d").data.length = 2 from rfl] at hlen
      simp only [List.length_append,
        show ("\x7b\x22cursors\x22:[").data.length = 12 from rfl,
        show ("]\x7d").data.length = 2 from rfl] at hlen
      omega
    have e2 : (encodeCursors enc (e :: q)).data =
        "\x7b\x22cursors\x22:[".data ++ (joinComma ((e :: q).map enc) ++ "]\x7d".data) := by
      simp [encodeCursors]
    rw [jsonParseCursors, if_neg hne, e2, stripPrefixChars_append]
    obtain ⟨t2, ht2⟩ := joinComma_head enc '{' hhead e q
    rw [ht2]
    rw [show (( '{' :: t2) ++ "]\x7d".data) = '{' :: (t2 ++ "]\x7d".data) from rfl]
    split
    · next heq => simp at heq
    · next cs2 heq =>
      injection heq with heq2
      subst heq2
      split
      · next heq3 => simp at heq3
      · rw [show ( '{' :: (t2 ++ "]\x7d".data)) = (( '{' :: t2) ++ "]\x7d".data) from rfl, ← ht2]
        have hpos : ∀ x, 1 ≤ (enc x).length := by
          intro x
          obtain ⟨t, ht⟩ := hhead x
          simp [ht]
        have hloop := parseEntriesAux_encode pe enc hrt (e :: q)
          ((joinComma ((e :: q).map enc) ++ "]\x7d".data).length + 1)
          (by
            have := length_le_joinComma enc hpos (e :: q)
            simp only [List.length_append, List.length_cons] at *
            omega)
          (by simp)
        rw [hloop]
        simp

theorem jsonParse_encodeRepoCursors (l : List PagedRepoInput) :
    jsonParseRepoCursors (encodeRepoCursors l) = some l := by
  refine jsonParseCursors_encodeCursors parseRepoEntry encodeRepoEntry
    parseRepoEntry_encode (fun x => ?_) l
  exact ⟨"\x22repo\x22:".data ++ (encodeObj (repoPairs x.repo) ++
    ((match x.cursor with
      | some c => ",\x22cursor\x22:".data ++ encodeJString c
      | none => []) ++ [ '}' ])), by simp [encodeRepoEntry]⟩

theorem jsonParse_encodeProjectCursors (l : List PagedProjectInput) :
    jsonParseProjectCursors (encodeProjectCursors l) = some l := by
  refine jsonParseCursors_encodeCursors parseProjectEntry encodeProjectEntry
    parseProjectEntry_encode (fun x => ?_) l
  exact ⟨joinComma ((projectPairs x).map encodePair) ++ [ '}' ], rfl⟩

/-- C10: with the filters option absent, neither facade resolves
identity — every call in the trace is a paging query call, and each
such call receives absent identity filter options. -/
theorem no_identity_resolution_without_filters {PR Issue : Type} (api : ProvidersApi PR Issue)
    (sched schedR : List PagedRepoInput → List PagedRepoInput)
    (schedP : List PagedProjectInput → List PagedProjectInput) (providerId : ProviderId)
    (reposOrRepoIds : ProviderReposInput) (cursor : Option String) :
    (ProvidersService.getPullRequestsForRepos api sched providerId reposOrRepoIds none
      cursor).2.all prEventNoIdentity = true ∧
    (ProvidersService.getIssuesForRepos api schedR schedP providerId reposOrRepoIds none
      cursor).2.all issueEventNoIdentity = true := by
  constructor
  · rw [ProvidersService.getPullRequestsForRepos]
    split
    · rfl
    · split
      · rfl
      · rw [show prIdentityStage api providerId reposOrRepoIds none = (some none, []) from rfl]
        split
        · next heq => simp at heq
        · next o tr heq =>
          rw [Prod.mk.injEq] at heq
          obtain ⟨h1, h2⟩ := heq
          injection h1 with h1
          subst h1
          subst h2
          split
          · split
            · rfl
            · split <;> simp [prEventNoIdentity, prUnitOpts, apply_ite Prod.snd]
          · simp only []
            split
            · simp [prEventNoIdentity]
            · simp [prEventNoIdentity]
  · rw [ProvidersService.getIssuesForRepos]
    split
    · rfl
    · split
      · rfl
      · split
        · rw [issuesAzure]
          simp only []
          split
          · rfl
          · split
            · rfl
            · rw [show ∀ org, issuesIdentityAzure api providerId org none = (some none, [])
                from fun _ => rfl]
              split
              · next heq => simp at heq
              · next o tr heq =>
                rw [Prod.mk.injEq] at heq
                obtain ⟨h1, h2⟩ := heq
                injection h1 with h1
                subst h1
                subst h2
                split
                · rfl
                · split <;> simp [issueEventNoIdentity, issueUnitOptsP, apply_ite Prod.snd]
        · rw [show issuesIdentityNonAzure api providerId none = (some none, []) from rfl]
          split
          · next heq => simp at heq
          · next o tr heq =>
            rw [Prod.mk.injEq] at heq
            obtain ⟨h1, h2⟩ := heq
            injection h1 with h1
            subst h1
            subst h2
            split
            · split
              · rfl
              · split <;> simp [issueEventNoIdentity, issueUnitOptsR, apply_ite Prod.snd]
            · simp only []
              split
              · simp [issueEventNoIdentity]
              · simp [issueEventNoIdentity]

/-- C9: decoding (`JSON.parse` into the `cursors` array) the string
produced by encoding (`JSON.stringify` of `\x7bcursors: [...]\x7d`) a
composite cursor yields an equal composite cursor, for every
unit-cursor-entry list including the empty list — for the repo-unit
codec and the project-unit codec alike. -/
theorem cursor_codec_roundtrip :
    (∀ l : List PagedRepoInput, jsonParseRepoCursors (encodeRepoCursors l) = some l) ∧
    (∀ l : List PagedProjectInput, jsonParseProjectCursors (encodeProjectCursors l) = some l) :=
  ⟨jsonParse_encodeRepoCursors, jsonParse_encodeProjectCursors⟩

/-- C3: the merged values follow promise-completion order, not unit
enumeration order.  With scenario A inputs `[R1, R2]` and the
completion schedule that resolves `R2` first, the code merges
`[pr3, pr1, pr2]`, not the `[pr1, pr2, pr3]` the claim requires; the
reversed schedule is a permutation of the initiation order, i.e. a
legitimate completion order of the two concurrent calls. -/
theorem fanout_values_follow_completion_order :
    ((ProvidersService.getPullRequestsForRepos apiA List.reverse .github
        (.repos [repoR1, repoR2]) none none).1.map (Option.map PagedResult.values) =
      .ok (some ["pr3", "pr1", "pr2"])) ∧
    (["pr3", "pr1", "pr2"] ≠ ["pr1", "pr2", "pr3"]) ∧
    ([{ repo := repoR2, cursor := none }, { repo := repoR1, cursor := none }].Perm
      [({ repo := repoR1, cursor := none } : PagedRepoInput), { repo := repoR2, cursor := none }]) := by
  decide

/-- C5 counterexample: for a non-AzureDevOps provider,
`getIssuesForRepos` performs no filter-capability check — with a
collaborator that supports no issue filter at all, the requested
`Author` filter still leads to identity resolution (`getCurrentUser`
appears in the trace) and to a successful paged result rather than a
failure before any network call. -/
theorem issue_filter_capability_not_checked :
    (apiNoIssueFilters.providerSupportsIssueFilters .github [IssueFilter.author] = false) ∧
    ((ProvidersService.getIssuesForRepos apiNoIssueFilters id id .github (.repos [repoR1])
        (some [IssueFilter.author]) none).2.contains (.currentUser .github) = true) ∧
    ((ProvidersService.getIssuesForRepos apiNoIssueFilters id id .github (.repos [repoR1])
        (some [IssueFilter.author]) none).1 =
      .ok (some
        { values := ["issue:R1"],
          paging := some
            { cursor := some "\x7b\x22cursors\x22:[]\x7d", more := false } })) := by
  decide

/-- C6 counterexample: for an AzureDevOps issue query the translated
author filter carries the account's display name (`Alice A`), not its
stable id (`42`) as the claim states. -/
theorem azure_issue_filter_uses_display_name :
    ((ProvidersService.getIssuesForRepos apiA id id .azureDevOps (.repos [repoR1])
        (some [IssueFilter.author]) none).2 =
      [.currentUserForInstance .azureDevOps "org-a",
       .issuesForAzureProject "org-a" "p1"
         { authorLogin := some "Alice A", assigneeLogins := none, mentionLogin := none,
           cursor := none }]) ∧
    acct.id = some "42" ∧ some "Alice A" ≠ acct.id := by
  decide

/-- C7 counterexample: a pull-request query against AzureDevOps with
descriptor units spanning two namespaces but no filters is not
rejected — the organization-count validation only runs on the
filters path, so two transport calls are made and a merged page is
returned. -/
theorem pr_org_validation_skipped_without_filters :
    ((ProvidersService.getPullRequestsForRepos apiA (fun l => l) .azureDevOps
        (.repos [repoR1, repoR2b]) none none).2 =
      [.pullRequestsForRepo .azureDevOps repoR1 { cursor := none },
       .pullRequestsForRepo .azureDevOps repoR2b { cursor := none }]) ∧
    ((ProvidersService.getPullRequestsForRepos apiA (fun l => l) .azureDevOps
        (.repos [repoR1, repoR2b]) none none).1.map (Option.map PagedResult.values) =
      .ok (some ["pr1", "pr2", "pr3"])) := by
  decide

/-- C8 counterexample: a present-but-empty cursor string is not
treated as the empty composite cursor — `JSON.parse('')` throws
outside the `try`, so the error escapes `getPullRequestsForRepos`
as a raised exception instead of the no-result outcome, while the
absent cursor is handled. -/
theorem empty_cursor_string_raises :
    ((ProvidersService.getPullRequestsForRepos apiA (fun l => l) .github (.repos [repoR1])
        none (some "")).1 = .error "SyntaxError: Unexpected end of JSON input") ∧
    (isErr (ProvidersService.getPullRequestsForRepos apiA (fun l => l) .github
        (.repos [repoR1]) none none).1 = false) := by
  decide

/-- Branch reduction: under the per-unit-path conditions with a
decodable caller cursor, `getPullRequestsForRepos` is the repo
fan-out. -/
theorem pr_perUnit_reduction {PR Issue : Type} (api : ProvidersApi PR Issue)
    (sched : List PagedRepoInput → List PagedRepoInput) (providerId : ProviderId)
    (input : ProviderReposInput) (filters : Option (List PullRequestFilter))
    (o : Option GetPullRequestsOptions) (tr : List CallEvent) (cursor : Option String)
    (entries : List PagedRepoInput)
    (h1 : api.ensureSessionOk providerId = true)
    (h2 : ¬ unsupportedShape providerId input)
    (h3 : prIdentityStage api providerId input filters = (some o, tr))
    (h4 : api.getProviderPullRequestsPagingMode providerId = .repo)
    (h5 : isRepoIdsInput input = false)
    (h6 : jsonParseRepoCursors (cursor.getD "\x7b\x7d") = some entries) :
    ProvidersService.getPullRequestsForRepos api sched providerId input filters cursor =
      (let base := o.getD {}
       let repoInputs := if 0 < entries.length then entries
         else (asRepoInputs input).map (fun r => { repo := r, cursor := none })
       let trace := tr ++ repoInputs.map (fun inp =>
         CallEvent.pullRequestsForRepo providerId inp.repo (prUnitOpts base inp))
       if repoInputs.any (fun inp => isErr (prUnitCall api providerId base inp)) then
         (.ok none, trace)
       else
         (.ok (some (prFanOutPage api providerId base (sched repoInputs))), trace)) := by
  rw [ProvidersService.getPullRequestsForRepos, h1]
  rw [if_neg (by simp), if_neg h2, h3]
  simp only []
  rw [if_pos ⟨h4, h5⟩, h6]

/-- Branch reduction: under the per-unit-path conditions for a
non-AzureDevOps provider with a decodable caller cursor,
`getIssuesForRepos` is the repo fan-out. -/
theorem issues_perUnit_reduction {PR Issue : Type} (api : ProvidersApi PR Issue)
    (schedR : List PagedRepoInput → List PagedRepoInput)
    (schedP : List PagedProjectInput → List PagedProjectInput) (providerId : ProviderId)
    (input : ProviderReposInput) (filters : Option (List IssueFilter))
    (o : Option GetIssuesOptions) (tr : List CallEvent) (cursor : Option String)
    (entries : List PagedRepoInput)
    (h1 : api.ensureSessionOk providerId = true)
    (h2 : ¬ unsupportedShape providerId input)
    (haz : providerId ≠ .azureDevOps)
    (h3 : issuesIdentityNonAzure api providerId filters = (some o, tr))
    (h4 : api.getProviderIssuesPagingMode providerId = .repo)
    (h5 : isRepoIdsInput input = false)
    (h6 : jsonParseRepoCursors (cursor.getD "\x7b\x7d") = some entries) :
    ProvidersService.getIssuesForRepos api schedR schedP providerId input filters cursor =
      (let base := o.getD {}
       let repoInputs := if 0 < entries.length then entries
         else (asRepoInputs input).map (fun r => { repo := r, cursor := none })
       let trace := tr ++ repoInputs.map (fun inp =>
         CallEvent.issuesForRepo providerId inp.repo (issueUnitOptsR base inp))
       if repoInputs.any (fun inp => isErr (issueRepoUnitCall api providerId base inp)) then
         (.ok none, trace)
       else
         (.ok (some (issuesRepoFanOutPage api providerId base (schedR repoInputs))), trace)) := by
  rw [ProvidersService.getIssuesForRepos, h1]
  rw [if_neg (by simp), if_neg h2, if_neg haz, h3]
  simp only []
  rw [if_pos ⟨h4, h5⟩, h6]

/-- Branch reduction: under the organization validations with a
decodable caller cursor, the AzureDevOps path of `getIssuesForRepos`
is the project fan-out. -/
theorem issues_azure_reduction {PR Issue : Type} (api : ProvidersApi PR Issue)
    (schedR : List PagedRepoInput → List PagedRepoInput)
    (schedP : List PagedProjectInput → List PagedProjectInput)
    (input : ProviderReposInput) (filters : Option (List IssueFilter))
    (o : Option GetIssuesOptions) (tr : List CallEvent) (cursor : Option String)
    (entries : List PagedProjectInput)
    (h1 : api.ensureSessionOk .azureDevOps = true)
    (h2 : ¬ unsupportedShape .azureDevOps input)
    (horg1 : ¬ 1 < (setInsert ((asRepoInputs input).map (·.«namespace»))).length)
    (horg0 : ¬ (setInsert ((asRepoInputs input).map (·.«namespace»))).length = 0)
    (h3 : issuesIdentityAzure api .azureDevOps
      (((setInsert ((asRepoInputs input).map (·.«namespace»))).headD none).getD "") filters =
      (some o, tr))
    (h6 : jsonParseProjectCursors (cursor.getD "\x7b\x7d") = some entries) :
    ProvidersService.getIssuesForRepos api schedR schedP .azureDevOps input filters cursor =
      (let organization : String :=
         ((setInsert ((asRepoInputs input).map (·.«namespace»))).headD none).getD ""
       let base := o.getD {}
       let projectInputs := if 0 < entries.length then entries
         else (setInsert ((asRepoInputs input).map (fun r => r.project.getD ""))).map (fun p =>
           { «namespace» := organization, project := p, cursor := none })
       let trace := tr ++ projectInputs.map (fun inp =>
         CallEvent.issuesForAzureProject inp.«namespace» inp.project (issueUnitOptsP base inp))
       if projectInputs.any (fun inp => isErr (issueProjectUnitCall api base inp)) then
         (.ok none, trace)
       else
         (.ok (some (issuesProjectFanOutPage api base (schedP projectInputs))), trace)) := by
  rw [ProvidersService.getIssuesForRepos, h1]
  rw [if_neg (by simp), if_neg h2, if_pos rfl, issuesAzure]
  simp only []
  rw [if_neg horg1, if_neg horg0, h3]
  simp only []
  rw [h6]

/-- C1: on the per-unit fan-out path, a caller cursor that decodes to a
non-empty entry list makes the coordinator query exactly the units
named in those entries — one transport call per entry, against the
entry's repository with its stored per-unit cursor, after the identity
calls — and no call against units derived afresh from the repository
input, for `getPullRequestsForRepos` and `getIssuesForRepos` alike. -/
theorem resume_queries_exactly_cursor_units {PR Issue : Type} (api : ProvidersApi PR Issue)
    (sched schedR : List PagedRepoInput → List PagedRepoInput)
    (schedP : List PagedProjectInput → List PagedProjectInput) (providerId : ProviderId)
    (input : ProviderReposInput) (s : String) :
    (∀ (filters : Option (List PullRequestFilter)) (o : Option GetPullRequestsOptions)
      (tr : List CallEvent) (entries : List PagedRepoInput),
      api.ensureSessionOk providerId = true →
      ¬ unsupportedShape providerId input →
      prIdentityStage api providerId input filters = (some o, tr) →
      api.getProviderPullRequestsPagingMode providerId = .repo →
      isRepoIdsInput input = false →
      jsonParseRepoCursors s = some entries →
      entries ≠ [] →
      (ProvidersService.getPullRequestsForRepos api sched providerId input filters
        (some s)).2 =
        tr ++ entries.map (fun e =>
          CallEvent.pullRequestsForRepo providerId e.repo (prUnitOpts (o.getD {}) e))) ∧
    (∀ (filters : Option (List IssueFilter)) (o : Option GetIssuesOptions)
      (tr : List CallEvent) (entries : List PagedRepoInput),
      api.ensureSessionOk providerId = true →
      ¬ unsupportedShape providerId input →
      providerId ≠ .azureDevOps →
      issuesIdentityNonAzure api providerId filters = (some o, tr) →
      api.getProviderIssuesPagingMode providerId = .repo →
      isRepoIdsInput input = false →
      jsonParseRepoCursors s = some entries →
      entries ≠ [] →
      (ProvidersService.getIssuesForRepos api schedR schedP providerId input filters
        (some s)).2 =
        tr ++ entries.map (fun e =>
          CallEvent.issuesForRepo providerId e.repo (issueUnitOptsR (o.getD {}) e))) := by
  constructor
  · intro filters o tr entries h1 h2 h3 h4 h5 h6 h7
    rw [pr_perUnit_reduction api sched providerId input filters o tr (some s) entries
      h1 h2 h3 h4 h5 h6]
    simp only []
    rw [if_pos (List.length_pos.mpr h7)]
    split <;> rfl
  · intro filters o tr entries h1 h2 haz h3 h4 h5 h6 h7
    rw [issues_perUnit_reduction api schedR schedP providerId input filters o tr (some s)
      entries h1 h2 haz h3 h4 h5 h6]
    simp only []
    rw [if_pos (List.length_pos.mpr h7)]
    split <;> rfl

/-- Witness for C1: against fresh input `[R2]`, a cursor naming `R1`
with stored cursor `c1` queries exactly `R1` with `c1`. -/
theorem resume_queries_exactly_cursor_units_witness :
    (ProvidersService.getPullRequestsForRepos apiA (fun l => l) .github (.repos [repoR2]) none
      (some (encodeRepoCursors [{ repo := repoR1, cursor := some "c1" }]))).2 =
      [CallEvent.pullRequestsForRepo .github repoR1 { cursor := some "c1" }] ∧
    (ProvidersService.getIssuesForRepos apiA id id .github (.repos [repoR2]) none
      (some (encodeRepoCursors [{ repo := repoR1, cursor := some "c1" }]))).2 =
      [CallEvent.issuesForRepo .github repoR1 { cursor := some "c1" }] := by
  constructor
  · have h := (resume_queries_exactly_cursor_units apiA (fun l => l) id id .github
      (.repos [repoR2]) (encodeRepoCursors [{ repo := repoR1, cursor := some "c1" }])).1
      none none [] [{ repo := repoR1, cursor := some "c1" }]
      rfl (by decide) rfl rfl rfl (by decide) (by decide)
    simpa [prUnitOpts] using h
  · have h := (resume_queries_exactly_cursor_units apiA (fun l => l) id id .github
      (.repos [repoR2]) (encodeRepoCursors [{ repo := repoR1, cursor := some "c1" }])).2
      none none [] [{ repo := repoR1, cursor := some "c1" }]
      rfl (by decide) (by decide) rfl rfl rfl (by decide) (by decide)
    simpa [issueUnitOptsR] using h

/-- C4: on the fan-out path, if any one of the concurrent per-unit
calls fails, the whole operation returns no result — none of the
succeeding units' values are observable — for both facades. -/
theorem failing_unit_aborts_fanout {PR Issue : Type} (api : ProvidersApi PR Issue)
    (sched schedR : List PagedRepoInput → List PagedRepoInput)
    (schedP : List PagedProjectInput → List PagedProjectInput) (providerId : ProviderId)
    (input : ProviderReposInput) (cursor : Option String) :
    (∀ (filters : Option (List PullRequestFilter)) (o : Option GetPullRequestsOptions)
      (tr : List CallEvent) (entries : List PagedRepoInput),
      api.ensureSessionOk providerId = true →
      ¬ unsupportedShape providerId input →
      prIdentityStage api providerId input filters = (some o, tr) →
      api.getProviderPullRequestsPagingMode providerId = .repo →
      isRepoIdsInput input = false →
      jsonParseRepoCursors (cursor.getD "\x7b\x7d") = some entries →
      (if 0 < entries.length then entries
        else (asRepoInputs input).map (fun r => { repo := r, cursor := none })).any
          (fun inp => isErr (prUnitCall api providerId (o.getD {}) inp)) = true →
      (ProvidersService.getPullRequestsForRepos api sched providerId input filters
        cursor).1 = .ok none) ∧
    (∀ (filters : Option (List IssueFilter)) (o : Option GetIssuesOptions)
      (tr : List CallEvent) (entries : List PagedRepoInput),
      api.ensureSessionOk providerId = true →
      ¬ unsupportedShape providerId input →
      providerId ≠ .azureDevOps →
      issuesIdentityNonAzure api providerId filters = (some o, tr) →
      api.getProviderIssuesPagingMode providerId = .repo →
      isRepoIdsInput input = false →
      jsonParseRepoCursors (cursor.getD "\x7b\x7d") = some entries →
      (if 0 < entries.length then entries
        else (asRepoInputs input).map (fun r => { repo := r, cursor := none })).any
          (fun inp => isErr (issueRepoUnitCall api providerId (o.getD {}) inp)) = true →
      (ProvidersService.getIssuesForRepos api schedR schedP providerId input filters
        cursor).1 = .ok none) := by
  constructor
  · intro filters o tr entries h1 h2 h3 h4 h5 h6 herr
    rw [pr_perUnit_reduction api sched providerId input filters o tr cursor entries
      h1 h2 h3 h4 h5 h6]
    simp only []
    rw [if_pos herr]
  · intro filters o tr entries h1 h2 haz h3 h4 h5 h6 herr
    rw [issues_perUnit_reduction api schedR schedP providerId input filters o tr cursor
      entries h1 h2 haz h3 h4 h5 h6]
    simp only []
    rw [if_pos herr]

/-- Witness for C4: with `R1` succeeding and `R2` rejecting, both
facades return no result. -/
theorem failing_unit_aborts_fanout_witness :
    (ProvidersService.getPullRequestsForRepos apiR2Fails (fun l => l) .github
      (.repos [repoR1, repoR2]) none none).1 = .ok none ∧
    (ProvidersService.getIssuesForRepos apiR2Fails id id .github
      (.repos [repoR1, repoR2]) none none).1 = .ok none := by
  constructor
  · exact (failing_unit_aborts_fanout apiR2Fails (fun l => l) id id .github
      (.repos [repoR1, repoR2]) none).1 none none [] []
      rfl (by decide) rfl rfl rfl (by decide) (by decide)
  · exact (failing_unit_aborts_fanout apiR2Fails (fun l => l) id id .github
      (.repos [repoR1, repoR2]) none).2 none none [] []
      rfl (by decide) (by decide) rfl rfl rfl (by decide) (by decide)

theorem fanOutMore_eq_true_iff {α β : Type} (call : α → Except String (PagedResult β))
    (completed : List α) :
    fanOutMore call completed = true ↔ ∃ u ∈ completed, moreOf (okOr (call u)) = true := by
  simp [fanOutMore, List.any_eq_true]

theorem fanOutCursors_eq_nil {α β E : Type} (call : α → Except String (PagedResult β))
    (entryOf : α → Option String → E) (completed : List α)
    (h : fanOutMore call completed = false) :
    fanOutCursors call entryOf completed = [] := by
  rw [fanOutCursors, List.filterMap_eq_nil_iff]
  intro u hu
  rw [fanOutMore] at h
  rw [if_neg]
  simp only [List.any_eq_false] at h
  simpa using h u hu

/-- C2: on a fan-out in which every unit call succeeds, the merged
`more` flag is the disjunction of the units' `more` flags; the
returned cursor string is present and decodes to exactly the entries
of the units that reported `more`, each paired with that unit's
returned cursor (as a multiset — push order follows completion
order); and with no unit reporting `more` it decodes to the empty
entry list.  Stated for the pull-request repo fan-out and the
AzureDevOps issue project fan-out. -/
theorem merged_more_and_cursor_content {PR Issue : Type} (api : ProvidersApi PR Issue)
    (sched schedR : List PagedRepoInput → List PagedRepoInput)
    (schedP : List PagedProjectInput → List PagedProjectInput)
    (input : ProviderReposInput) (cursor : Option String) :
    (∀ (providerId : ProviderId) (filters : Option (List PullRequestFilter))
      (o : Option GetPullRequestsOptions) (tr : List CallEvent)
      (entries repoInputs : List PagedRepoInput),
      api.ensureSessionOk providerId = true →
      ¬ unsupportedShape providerId input →
      prIdentityStage api providerId input filters = (some o, tr) →
      api.getProviderPullRequestsPagingMode providerId = .repo →
      isRepoIdsInput input = false →
      jsonParseRepoCursors (cursor.getD "\x7b\x7d") = some entries →
      repoInputs = (if 0 < entries.length then entries
        else (asRepoInputs input).map (fun r => { repo := r, cursor := none })) →
      repoInputs.any (fun inp => isErr (prUnitCall api providerId (o.getD {}) inp)) = false →
      (sched repoInputs).Perm repoInputs →
      ∃ (page : PagedResult PR) (M : Bool) (cs : String) (decoded : List PagedRepoInput),
        (ProvidersService.getPullRequestsForRepos api sched providerId input filters
          cursor).1 = .ok (some page) ∧
        page.paging = some { cursor := some cs, more := M } ∧
        (M = true ↔ ∃ inp ∈ repoInputs,
          moreOf (okOr (prUnitCall api providerId (o.getD {}) inp)) = true) ∧
        jsonParseRepoCursors cs = some decoded ∧
        decoded.Perm (repoInputs.filterMap (fun inp =>
          if moreOf (okOr (prUnitCall api providerId (o.getD {}) inp)) then
            some { repo := inp.repo,
                   cursor := cursorOf (okOr (prUnitCall api providerId (o.getD {}) inp)) }
          else none)) ∧
        (M = false → decoded = [])) ∧
    (∀ (filters : Option (List IssueFilter)) (o : Option GetIssuesOptions)
      (tr : List CallEvent) (entries projectInputs : List PagedProjectInput),
      api.ensureSessionOk .azureDevOps = true →
      ¬ unsupportedShape .azureDevOps input →
      ¬ 1 < (setInsert ((asRepoInputs input).map (·.«namespace»))).length →
      ¬ (setInsert ((asRepoInputs input).map (·.«namespace»))).length = 0 →
      issuesIdentityAzure api .azureDevOps
        (((setInsert ((asRepoInputs input).map (·.«namespace»))).headD none).getD "")
        filters = (some o, tr) →
      jsonParseProjectCursors (cursor.getD "\x7b\x7d") = some entries →
      projectInputs = (if 0 < entries.length then entries
        else (setInsert ((asRepoInputs input).map (fun r => r.project.getD ""))).map (fun p =>
          { «namespace» :=
              ((setInsert ((asRepoInputs input).map (·.«namespace»))).headD none).getD ""
            project := p, cursor := none })) →
      projectInputs.any (fun inp => isErr (issueProjectUnitCall api (o.getD {}) inp)) = false →
      (schedP projectInputs).Perm projectInputs →
      ∃ (page : PagedResult Issue) (M : Bool) (cs : String)
        (decoded : List PagedProjectInput),
        (ProvidersService.getIssuesForRepos api schedR schedP .azureDevOps input filters
          cursor).1 = .ok (some page) ∧
        page.paging = some { cursor := some cs, more := M } ∧
        (M = true ↔ ∃ inp ∈ projectInputs,
          moreOf (okOr (issueProjectUnitCall api (o.getD {}) inp)) = true) ∧
        jsonParseProjectCursors cs = some decoded ∧
        decoded.Perm (projectInputs.filterMap (fun inp =>
          if moreOf (okOr (issueProjectUnitCall api (o.getD {}) inp)) then
            some { «namespace» := inp.«namespace», project := inp.project,
                   cursor := cursorOf (okOr (issueProjectUnitCall api (o.getD {}) inp)) }
          else none)) ∧
        (M = false → decoded = [])) := by
  constructor
  · intro providerId filters o tr entries repoInputs h1 h2 h3 h4 h5 h6 hri hok hperm
    rw [pr_perUnit_reduction api sched providerId input filters o tr cursor entries
      h1 h2 h3 h4 h5 h6]
    simp only []
    rw [← hri, if_neg (by rw [hok]; simp)]
    refine ⟨prFanOutPage api providerId (o.getD {}) (sched repoInputs),
      fanOutMore (prUnitCall api providerId (o.getD {})) (sched repoInputs),
      encodeRepoCursors (fanOutCursors (prUnitCall api providerId (o.getD {}))
        (fun inp c => { repo := inp.repo, cursor := c }) (sched repoInputs)),
      fanOutCursors (prUnitCall api providerId (o.getD {}))
        (fun inp c => { repo := inp.repo, cursor := c }) (sched repoInputs),
      rfl, rfl, ?_, jsonParse_encodeRepoCursors _, ?_, ?_⟩
    · rw [fanOutMore_eq_true_iff]
      constructor
      · rintro ⟨u, hu, hm⟩; exact ⟨u, hperm.mem_iff.mp hu, hm⟩
      · rintro ⟨u, hu, hm⟩; exact ⟨u, hperm.mem_iff.mpr hu, hm⟩
    · exact hperm.filterMap _
    · intro hM
      exact fanOutCursors_eq_nil _ _ _ hM
  · intro filters o tr entries projectInputs h1 h2 horg1 horg0 h3 h6 hri hok hperm
    rw [issues_azure_reduction api schedR schedP input filters o tr cursor entries
      h1 h2 horg1 horg0 h3 h6]
    simp only []
    rw [← hri, if_neg (by rw [hok]; simp)]
    refine ⟨issuesProjectFanOutPage api (o.getD {}) (schedP projectInputs),
      fanOutMore (issueProjectUnitCall api (o.getD {})) (schedP projectInputs),
      encodeProjectCursors (fanOutCursors (issueProjectUnitCall api (o.getD {}))
        (fun inp c => { «namespace» := inp.«namespace», project := inp.project, cursor := c })
        (schedP projectInputs)),
      fanOutCursors (issueProjectUnitCall api (o.getD {}))
        (fun inp c => { «namespace» := inp.«namespace», project := inp.project, cursor := c })
        (schedP projectInputs),
      rfl, rfl, ?_, jsonParse_encodeProjectCursors _, ?_, ?_⟩
    · rw [fanOutMore_eq_true_iff]
      constructor
      · rintro ⟨u, hu, hm⟩; exact ⟨u, hperm.mem_iff.mp hu, hm⟩
      · rintro ⟨u, hu, hm⟩; exact ⟨u, hperm.mem_iff.mpr hu, hm⟩
    · exact hperm.filterMap _
    · intro hM
      exact fanOutCursors_eq_nil _ _ _ hM

/-- Witness for C2: scenario A (`R1` has more with cursor `c1`, `R2`
complete) for pull requests, and the two-project AzureDevOps issue
fan-out with no unit reporting more. -/
theorem merged_more_and_cursor_content_witness :
    (∃ (page : PagedResult String) (M : Bool) (cs : String) (decoded : List PagedRepoInput),
      (ProvidersService.getPullRequestsForRepos apiA (fun l => l) .github
        (.repos [repoR1, repoR2]) none none).1 = .ok (some page) ∧
      page.paging = some { cursor := some cs, more := M } ∧
      (M = true ↔ ∃ inp ∈ [({ repo := repoR1, cursor := none } : PagedRepoInput),
          { repo := repoR2, cursor := none }],
        moreOf (okOr (prUnitCall apiA .github {} inp)) = true) ∧
      jsonParseRepoCursors cs = some decoded ∧
      decoded.Perm
        ([({ repo := repoR1, cursor := none } : PagedRepoInput),
          { repo := repoR2, cursor := none }].filterMap (fun inp =>
          if moreOf (okOr (prUnitCall apiA .github {} inp)) then
            some { repo := inp.repo, cursor := cursorOf (okOr (prUnitCall apiA .github {} inp)) }
          else none)) ∧
      (M = false → decoded = [])) ∧
    (∃ (page : PagedResult String) (M : Bool) (cs : String)
      (decoded : List PagedProjectInput),
      (ProvidersService.getIssuesForRepos apiA id id .azureDevOps
        (.repos [repoR1, repoR2]) none none).1 = .ok (some page) ∧
      page.paging = some { cursor := some cs, more := M } ∧
      (M = true ↔ ∃ inp ∈ [({ «namespace» := "org-a", project := "p1", cursor := none } :
          PagedProjectInput), { «namespace» := "org-a", project := "p2", cursor := none }],
        moreOf (okOr (issueProjectUnitCall apiA {} inp)) = true) ∧
      jsonParseProjectCursors cs = some decoded ∧
      decoded.Perm
        ([({ «namespace» := "org-a", project := "p1", cursor := none } : PagedProjectInput),
          { «namespace» := "org-a", project := "p2", cursor := none }].filterMap (fun inp =>
          if moreOf (okOr (issueProjectUnitCall apiA {} inp)) then
            some { «namespace» := inp.«namespace», project := inp.project,
                   cursor := cursorOf (okOr (issueProjectUnitCall apiA {} inp)) }
          else none)) ∧
      (M = false → decoded = [])) := by
  constructor
  · exact (merged_more_and_cursor_content apiA (fun l => l) id id
      (.repos [repoR1, repoR2]) none).1 .github none none []
      [] [{ repo := repoR1, cursor := none }, { repo := repoR2, cursor := none }]
      rfl (by decide) rfl rfl rfl (by decide) (by decide) (by decide) (by decide)
  · exact (merged_more_and_cursor_content apiA (fun l => l) id id
      (.repos [repoR1, repoR2]) none).2 none none []
      [] [{ «namespace» := "org-a", project := "p1", cursor := none },
          { «namespace» := "org-a", project := "p2", cursor := none }]
      rfl (by decide) (by decide) (by decide) rfl (by decide) (by decide) (by decide)
      (by decide)

/-- C5 (amended): `getPullRequestsForRepos` (every provider) and the
AzureDevOps path of `getIssuesForRepos` reject an unsupported
requested filter before resolving identity and before any transport
call (no result, empty trace); the non-AzureDevOps issue path
performs no such check (see the counterexample). -/
theorem unsupported_filter_rejection {PR Issue : Type} (api : ProvidersApi PR Issue)
    (sched schedR : List PagedRepoInput → List PagedRepoInput)
    (schedP : List PagedProjectInput → List PagedProjectInput) (providerId : ProviderId)
    (input : ProviderReposInput) (cursor : Option String)
    (fsP : List PullRequestFilter) (fsI : List IssueFilter) :
    (api.ensureSessionOk providerId = true →
     ¬ unsupportedShape providerId input →
     api.providerSupportsPullRequestFilters providerId fsP = false →
     ProvidersService.getPullRequestsForRepos api sched providerId input (some fsP) cursor =
       (.ok none, [])) ∧
    (api.ensureSessionOk .azureDevOps = true →
     ¬ unsupportedShape .azureDevOps input →
     ¬ 1 < (setInsert ((asRepoInputs input).map (·.«namespace»))).length →
     ¬ (setInsert ((asRepoInputs input).map (·.«namespace»))).length = 0 →
     api.providerSupportsIssueFilters .azureDevOps fsI = false →
     ProvidersService.getIssuesForRepos api schedR schedP .azureDevOps input (some fsI)
       cursor = (.ok none, [])) := by
  constructor
  · intro h1 h2 hsup
    have hstage : prIdentityStage api providerId input (some fsP) = (none, []) := by
      rw [prIdentityStage]
      simp [hsup]
    rw [ProvidersService.getPullRequestsForRepos, h1]
    rw [if_neg (by simp), if_neg h2, hstage]
  · intro h1 h2 horg1 horg0 hsup
    have hstage : ∀ org, issuesIdentityAzure api .azureDevOps org (some fsI) = (none, []) := by
      intro org
      rw [issuesIdentityAzure]
      simp [hsup]
    rw [ProvidersService.getIssuesForRepos, h1]
    rw [if_neg (by simp), if_neg h2, if_pos rfl, issuesAzure]
    simp only []
    rw [if_neg horg1, if_neg horg0, hstage]

/-- Witness for the amended C5. -/
theorem unsupported_filter_rejection_witness :
    ProvidersService.getPullRequestsForRepos apiNoPrFilters (fun l => l) .github
      (.repos [repoR1]) (some [PullRequestFilter.author]) none = (.ok none, []) ∧
    ProvidersService.getIssuesForRepos apiNoIssueFilters id id .azureDevOps
      (.repos [repoR1]) (some [IssueFilter.author]) none = (.ok none, []) := by
  constructor
  · exact (unsupported_filter_rejection apiNoPrFilters (fun l => l) id id .github
      (.repos [repoR1]) none [PullRequestFilter.author] [IssueFilter.author]).1
      rfl (by decide) rfl
  · exact (unsupported_filter_rejection apiNoIssueFilters (fun l => l) id id .azureDevOps
      (.repos [repoR1]) none [PullRequestFilter.author] [IssueFilter.author]).2
      rfl (by decide) (by decide) (by decide) rfl

/-- C6 (amended): for pull-request queries, AzureDevOps and Bitbucket
filter by the resolved identity's stable id and all other providers by
its username; for issue queries, AzureDevOps filters by the identity's
display name and every other provider (Bitbucket included) by its
username. -/
theorem identity_field_selection {PR Issue : Type} (api : ProvidersApi PR Issue)
    (providerId : ProviderId) (input : ProviderReposInput) (org : String)
    (u : ProviderAccount) (v : String) :
    (prUserFilterProperty .azureDevOps u = u.id ∧
     prUserFilterProperty .bitbucket u = u.id ∧
     prUserFilterProperty .github u = u.username ∧
     prUserFilterProperty .gitlab u = u.username) ∧
    (∀ (fs : List PullRequestFilter) (tr : List CallEvent),
      api.providerSupportsPullRequestFilters providerId fs = true →
      prResolveAccount api providerId input = (some u, tr) →
      prUserFilterProperty providerId u = some v →
      prIdentityStage api providerId input (some fs) =
        (some (some {
          authorLogin := if PullRequestFilter.author ∈ fs then some v else none
          assigneeLogins := if PullRequestFilter.assignee ∈ fs then some [v] else none
          reviewRequestedLogin :=
            if PullRequestFilter.reviewRequested ∈ fs then some v else none
          mentionLogin := if PullRequestFilter.mention ∈ fs then some v else none }), tr)) ∧
    (∀ (fs : List IssueFilter),
      api.providerSupportsIssueFilters .azureDevOps fs = true →
      api.getCurrentUserForInstance .azureDevOps org = .ok (some u) →
      u.name = some v →
      issuesIdentityAzure api .azureDevOps org (some fs) =
        (some (some {
          authorLogin := if IssueFilter.author ∈ fs then some v else none
          assigneeLogins := if IssueFilter.assignee ∈ fs then some [v] else none
          mentionLogin := if IssueFilter.mention ∈ fs then some v else none }),
          [.currentUserForInstance .azureDevOps org])) ∧
    (∀ (fs : List IssueFilter),
      api.getCurrentUser providerId = .ok (some u) →
      u.username = some v →
      issuesIdentityNonAzure api providerId (some fs) =
        (some (some {
          authorLogin := if IssueFilter.author ∈ fs then some v else none
          assigneeLogins := if IssueFilter.assignee ∈ fs then some [v] else none
          mentionLogin := if IssueFilter.mention ∈ fs then some v else none }),
          [.currentUser providerId])) := by
  refine ⟨⟨rfl, rfl, rfl, rfl⟩, ?_, ?_, ?_⟩
  · intro fs tr hsup hres hfield
    rw [prIdentityStage]
    simp only [hsup, if_true, hres, hfield]
  · intro fs hsup hcur hname
    rw [issuesIdentityAzure]
    simp only [hsup, if_true, hcur, hname]
  · intro fs hcur husername
    rw [issuesIdentityNonAzure]
    simp only [hcur, husername]

/-- Witness for the amended C6 at the scenario account
(`id 42`, `username alice`, display name `Alice A`). -/
theorem identity_field_selection_witness :
    prIdentityStage apiA .azureDevOps (.repos [repoR1]) (some [PullRequestFilter.author]) =
      (some (some { authorLogin := some "42" }),
        [.currentUserForInstance .azureDevOps "org-a"]) ∧
    issuesIdentityAzure apiA .azureDevOps "org-a" (some [IssueFilter.author]) =
      (some (some { authorLogin := some "Alice A" }),
        [.currentUserForInstance .azureDevOps "org-a"]) ∧
    issuesIdentityNonAzure apiA .bitbucket (some [IssueFilter.author]) =
      (some (some { authorLogin := some "alice" }), [.currentUser .bitbucket]) := by
  refine ⟨?_, ?_, ?_⟩
  · have h := (identity_field_selection apiA .azureDevOps (.repos [repoR1]) "org-a"
      acct "42").2.1 [PullRequestFilter.author] [.currentUserForInstance .azureDevOps "org-a"]
      rfl (by decide) rfl
    simpa using h
  · have h := (identity_field_selection apiA .azureDevOps (.repos [repoR1]) "org-a"
      acct "Alice A").2.2.1 [IssueFilter.author] rfl rfl rfl
    simpa using h
  · have h := (identity_field_selection apiA .bitbucket (.repos [repoR1]) "org-a"
      acct "alice").2.2.2 [IssueFilter.author] rfl rfl
    simpa using h

/-- C7 (amended): against AzureDevOps with descriptor input, the
organization-count validation — no result with zero transport calls
on zero or on more than one distinct namespace — holds for every
issue query (with or without filters), but for pull-request queries
only when filters are present (see the counterexample for the
filterless pull-request path). -/
theorem azure_organization_validation {PR Issue : Type} (api : ProvidersApi PR Issue)
    (sched schedR : List PagedRepoInput → List PagedRepoInput)
    (schedP : List PagedProjectInput → List PagedProjectInput)
    (input : ProviderReposInput) (cursor : Option String) :
    (∀ (filters : Option (List IssueFilter)),
      api.ensureSessionOk .azureDevOps = true →
      ¬ unsupportedShape .azureDevOps input →
      (1 < (setInsert ((asRepoInputs input).map (·.«namespace»))).length ∨
        (setInsert ((asRepoInputs input).map (·.«namespace»))).length = 0) →
      ProvidersService.getIssuesForRepos api schedR schedP .azureDevOps input filters
        cursor = (.ok none, [])) ∧
    (∀ (fs : List PullRequestFilter),
      api.ensureSessionOk .azureDevOps = true →
      ¬ unsupportedShape .azureDevOps input →
      api.providerSupportsPullRequestFilters .azureDevOps fs = true →
      (1 < (setInsert ((asRepoInputs input).map (·.«namespace»))).length ∨
        (setInsert ((asRepoInputs input).map (·.«namespace»))).length = 0) →
      ProvidersService.getPullRequestsForRepos api sched .azureDevOps input (some fs)
        cursor = (.ok none, [])) := by
  constructor
  · intro filters h1 h2 horg
    rw [ProvidersService.getIssuesForRepos, h1]
    rw [if_neg (by simp), if_neg h2, if_pos rfl, issuesAzure]
    simp only []
    rcases horg with horg | horg
    · rw [if_pos horg]
    · rw [if_neg (by omega), if_pos horg]
  · intro fs h1 h2 hsup horg
    have hres : prResolveAccount api .azureDevOps input = (none, []) := by
      rw [prResolveAccount, if_pos rfl]
      simp only []
      rcases horg with horg | horg
      · rw [if_pos horg]
      · rw [if_neg (by omega), if_pos horg]
    have hstage : prIdentityStage api .azureDevOps input (some fs) = (none, []) := by
      rw [prIdentityStage]
      simp only [hsup, if_true, hres]
    rw [ProvidersService.getPullRequestsForRepos, h1]
    rw [if_neg (by simp), if_neg h2, hstage]

/-- Witness for the amended C7: namespaces `org-a` and `org-b`. -/
theorem azure_organization_validation_witness :
    ProvidersService.getIssuesForRepos apiA id id .azureDevOps
      (.repos [repoR1, repoR2b]) none none = (.ok none, []) ∧
    ProvidersService.getPullRequestsForRepos apiA (fun l => l) .azureDevOps
      (.repos [repoR1, repoR2b]) (some [PullRequestFilter.author]) none = (.ok none, []) := by
  constructor
  · exact (azure_organization_validation apiA (fun l => l) id id
      (.repos [repoR1, repoR2b]) none).1 none rfl (by decide) (by decide)
  · exact (azure_organization_validation apiA (fun l => l) id id
      (.repos [repoR1, repoR2b]) none).2 [PullRequestFilter.author] rfl (by decide) rfl
      (by decide)

/-- C8 (amended): handled failures — identity and transport — surface
as no result rather than a raised error, and an absent cursor is
treated as the empty composite cursor: on the fan-out paths the
operation behaves identically for an absent cursor and for the
explicit `\x7b"cursors":[]\x7d` string.  However, a present cursor
string that is not valid JSON (in particular the empty string) makes
the `JSON.parse` error escape the fan-out paths as a raised error
(see the counterexample). -/
theorem failures_surface_as_no_result {PR Issue : Type} (api : ProvidersApi PR Issue)
    (sched schedR : List PagedRepoInput → List PagedRepoInput)
    (schedP : List PagedProjectInput → List PagedProjectInput) (providerId : ProviderId)
    (input : ProviderReposInput) :
    (∀ (filters : Option (List PullRequestFilter)) (o : Option GetPullRequestsOptions)
      (tr : List CallEvent),
      api.ensureSessionOk providerId = true →
      ¬ unsupportedShape providerId input →
      prIdentityStage api providerId input filters = (some o, tr) →
      api.getProviderPullRequestsPagingMode providerId = .repo →
      isRepoIdsInput input = false →
      ProvidersService.getPullRequestsForRepos api sched providerId input filters none =
        ProvidersService.getPullRequestsForRepos api sched providerId input filters
          (some "\x7b\x22cursors\x22:[]\x7d")) ∧
    (∀ (filters : Option (List IssueFilter)) (o : Option GetIssuesOptions)
      (tr : List CallEvent),
      api.ensureSessionOk .azureDevOps = true →
      ¬ unsupportedShape .azureDevOps input →
      ¬ 1 < (setInsert ((asRepoInputs input).map (·.«namespace»))).length →
      ¬ (setInsert ((asRepoInputs input).map (·.«namespace»))).length = 0 →
      issuesIdentityAzure api .azureDevOps
        (((setInsert ((asRepoInputs input).map (·.«namespace»))).headD none).getD "")
        filters = (some o, tr) →
      ProvidersService.getIssuesForRepos api schedR schedP .azureDevOps input filters none =
        ProvidersService.getIssuesForRepos api schedR schedP .azureDevOps input filters
          (some "\x7b\x22cursors\x22:[]\x7d")) ∧
    (∀ (fs : List PullRequestFilter) (e : String),
      api.ensureSessionOk providerId = true →
      ¬ unsupportedShape providerId input →
      providerId ≠ .azureDevOps →
      api.providerSupportsPullRequestFilters providerId fs = true →
      api.getCurrentUser providerId = .error e →
      ProvidersService.getPullRequestsForRepos api sched providerId input (some fs) none =
        (.ok none, [.currentUser providerId])) ∧
    (∀ (filters : Option (List PullRequestFilter)) (o : Option GetPullRequestsOptions)
      (tr : List CallEvent) (cursor : Option String) (e : String),
      api.ensureSessionOk providerId = true →
      ¬ unsupportedShape providerId input →
      prIdentityStage api providerId input filters = (some o, tr) →
      ¬ (api.getProviderPullRequestsPagingMode providerId = .repo ∧
          isRepoIdsInput input = false) →
      api.getPullRequestsForRepos providerId input { o.getD {} with cursor := cursor } =
        .error e →
      (ProvidersService.getPullRequestsForRepos api sched providerId input filters
        cursor).1 = .ok none) ∧
    (∀ («namespace» project : String) (cursor : Option String),
      isErr (ProvidersService.getReposForAzureProject api «namespace» project cursor).1 =
        false) := by
  refine ⟨?_, ?_, ?_, ?_, ?_⟩
  · intro filters o tr h1 h2 h3 h4 h5
    rw [pr_perUnit_reduction api sched providerId input filters o tr none [] h1 h2 h3 h4 h5
      rfl]
    rw [pr_perUnit_reduction api sched providerId input filters o tr
      (some "\x7b\x22cursors\x22:[]\x7d") [] h1 h2 h3 h4 h5 (by rfl)]
  · intro filters o tr h1 h2 horg1 horg0 h3
    rw [issues_azure_reduction api schedR schedP input filters o tr none [] h1 h2 horg1
      horg0 h3 rfl]
    rw [issues_azure_reduction api schedR schedP input filters o tr
      (some "\x7b\x22cursors\x22:[]\x7d") [] h1 h2 horg1 horg0 h3 (by rfl)]
  · intro fs e h1 h2 hne hsup hcur
    have hstage : prIdentityStage api providerId input (some fs) =
        (none, [.currentUser providerId]) := by
      rw [prIdentityStage]
      simp only [hsup, if_true, prResolveAccount, if_neg hne, hcur]
    rw [ProvidersService.getPullRequestsForRepos, h1]
    rw [if_neg (by simp), if_neg h2, hstage]
  · intro filters o tr cursor e h1 h2 h3 hmode herr
    rw [ProvidersService.getPullRequestsForRepos, h1]
    rw [if_neg (by simp), if_neg h2, h3]
    simp only []
    rw [if_neg hmode, herr]
  · intro ns p c
    rw [ProvidersService.getReposForAzureProject]
    split
    · rfl
    · split <;> rfl

/-- Witness for the amended C8. -/
theorem failures_surface_as_no_result_witness :
    (ProvidersService.getPullRequestsForRepos apiA (fun l => l) .github (.repos [repoR1])
        none none =
      ProvidersService.getPullRequestsForRepos apiA (fun l => l) .github (.repos [repoR1])
        none (some "\x7b\x22cursors\x22:[]\x7d")) ∧
    (ProvidersService.getIssuesForRepos apiA id id .azureDevOps (.repos [repoR1])
        none none =
      ProvidersService.getIssuesForRepos apiA id id .azureDevOps (.repos [repoR1])
        none (some "\x7b\x22cursors\x22:[]\x7d")) ∧
    (ProvidersService.getPullRequestsForRepos apiIdentityFails (fun l => l) .github
        (.repos [repoR1]) (some [PullRequestFilter.author]) none =
      (.ok none, [.currentUser .github])) ∧
    ((ProvidersService.getPullRequestsForRepos apiBulkFails (fun l => l) .github
        (.repos [repoR1]) none none).1 = .ok none) ∧
    (isErr (ProvidersService.getReposForAzureProject apiA "org-a" "p1" none).1 = false) := by
  refine ⟨?_, ?_, ?_, ?_, ?_⟩
  · exact (failures_surface_as_no_result apiA (fun l => l) id id .github
      (.repos [repoR1])).1 none none [] rfl (by decide) rfl rfl rfl
  · exact (failures_surface_as_no_result apiA (fun l => l) id id .azureDevOps
      (.repos [repoR1])).2.1 none none [] rfl (by decide) (by decide) (by decide) rfl
  · exact (failures_surface_as_no_result apiIdentityFails (fun l => l) id id .github
      (.repos [repoR1])).2.2.1 [PullRequestFilter.author] "identity unavailable" rfl
      (by decide) (by decide) rfl rfl
  · exact (failures_surface_as_no_result apiBulkFails (fun l => l) id id .github
      (.repos [repoR1])).2.2.2.1 none none [] none "bulk rejected" rfl (by decide) rfl
      (by decide) rfl
  · exact (failures_surface_as_no_result apiA (fun l => l) id id .github
      (.repos [repoR1])).2.2.2.2 "org-a" "p1" none
